import Mathlib

/-!
# Bloxorz: the cuboid, the tile grid and the per-frame grid pass

A shallow embedding of the puzzle logic of `Sample_GL3_2D.cpp`:
`cuboid::move`, the `tiles` constructor, `init_grid`, `is_occupied`,
`toggle_bridge` and the grid loop of `draw` with the off-grid check that
follows it.

Modelling conventions.
* C++ `float` coordinates are rationals.  Every coordinate the puzzle logic
  compares is an integer multiple of `side/2 = 1/2`, which `float` represents
  exactly, so `==` on floats is equality of rationals there.
* C++ `int` is `Int` (no wrap-around; `moves` would need 2^31 moves to
  overflow).  `mapInd`, an array index, is a `Nat`.
* The process-wide globals (`game_progress`, `take_action`, `last_move`,
  `piece`, `mapInd`, `grid`, `fall_speed`) are the fields of `Game`; a
  function that reads or writes a global takes and returns a `Game`.
* `glm::mat4 rotation` is kept symbolically, as the list of quarter-turn
  factors multiplied onto it from the left (head = leftmost factor), the
  empty list being the identity matrix.
* Drawing calls (`draw3DObject`, matrix uploads) have no effect on the
  puzzle state and are left out.
-/

namespace Bloxorz

/-- `const float side = 1;` -/
def side : ℚ := 1

/-- A quarter turn multiplied onto `rotation` by `cuboid::move`. -/
inductive Turn where
  /-- `glm::rotate(+90°, (0,0,1))`, used by Left. -/
  | zPlus
  /-- `glm::rotate(-90°, (0,0,1))`, used by Right. -/
  | zMinus
  /-- `glm::rotate(-90°, (1,0,0))`, used by Up. -/
  | xMinus
  /-- `glm::rotate(+90°, (1,0,0))`, used by Down. -/
  | xPlus
  deriving DecidableEq, Repr

/-- `class cuboid`: `state` is 0 = along x, 1 = along y, 2 = along z;
`x y z` is the center; `one_*`, `two_*` are the centers of the two cubes. -/
structure cuboid where
  state : Int
  rotation : List Turn
  x : ℚ
  y : ℚ
  z : ℚ
  one_x : ℚ
  one_y : ℚ
  one_z : ℚ
  two_x : ℚ
  two_y : ℚ
  two_z : ℚ
  moves : Int
  deriving DecidableEq, Repr

/-- The constructor `cuboid::cuboid()`. -/
def cuboid.new : cuboid :=
  { state := 1, rotation := [],
    x := 0, y := 0, z := 0,
    one_x := 0, one_y := -1 * side / 2, one_z := 0,
    two_x := 0, two_y := side / 2, two_z := 0,
    moves := 0 }

/-- `class tiles`: `state` is 0 = vacant, 1 = occupied; `type` is
1 = regular, 2 = fragile, 3 = bridge, 4 = switch, 5 = goal. -/
structure tiles where
  state : Int
  type : Int
  i : Int
  j : Int
  x : ℚ
  y : ℚ
  z : ℚ
  show_ : Int
  deriving DecidableEq, Repr

def map_center_i : Int := 5
def map_center_j : Int := 5
def max_map_size : Nat := 10
def max_maps : Nat := 2

/-- The constructor `tiles::tiles(int a, int b, int c)`.  It leaves `state`
uninitialised; `init_grid` assigns it right after, so it is an argument
here. -/
def tiles.new (a b c : Int) (st : Int) : tiles :=
  { state := st, type := c, i := a, j := b,
    x := ((a - map_center_i : Int) : ℚ) * side,
    y := -1 * (side + side / 10),
    z := -1 * ((b - map_center_j : Int) : ℚ) * side,
    show_ := if c = 3 then 0 else 1 }

/-- The level arrays `maps[max_maps][max_map_size][max_map_size]`;
-1 marks the start cell. -/
def maps : List (List (List Int)) :=
  [ [ [ 0, 0, 0, 0, 0, 0, 0, 0, 0, 0],
      [ 0, 0, 0, 0, 0, 0, 0, 0, 0, 0],
      [ 0, 0, 0, 0, 0, 0, 1, 1, 1, 1],
      [ 1, 1, 1, 1, 0, 0, 1, 1, 5, 1],
      [ 1, 1, 4, 1, 0, 0, 1, 1, 1, 1],
      [ 1, 1, 1, 1, 0, 0, 1, 1, 1, 1],
      [ 1,-1, 1, 1, 3, 3, 1, 1, 1, 1],
      [ 1, 1, 1, 1, 0, 0, 1, 1, 1, 1],
      [ 2, 0, 0, 0, 0, 0, 0, 0, 0, 0],
      [ 0, 0, 0, 0, 0, 0, 0, 0, 0, 0] ],
    [ [ 0, 0, 0, 0, 0, 0, 0, 0, 0, 0],
      [ 0, 0, 0, 0, 0, 0, 0, 0, 0, 0],
      [ 0, 0, 0, 0, 0, 0, 1, 1, 1, 1],
      [ 1, 1, 1, 1, 0, 0, 1, 1, 5, 1],
      [ 1, 1, 4, 1, 0, 0, 1, 1, 1, 1],
      [ 1, 1, 1, 1, 0, 0, 1, 1, 1, 1],
      [ 1,-1, 1, 1, 3, 3, 1, 1, 1, 1],
      [ 1, 1, 1, 1, 0, 0, 1, 1, 1, 1],
      [ 0, 0, 0, 0, 0, 0, 0, 0, 0, 0],
      [ 0, 0, 0, 0, 0, 0, 0, 0, 0, 0] ] ]

def max_switches : Nat := 2
def max_switch_size : Nat := 10

/-- The switch table `switches[max_maps][max_switches][max_switch_size]`:
the first two numbers of a row are the switch indices, the rest pairwise
the bridge indices. -/
def switches : List (List (List Int)) :=
  [ [ [ 4, 2, 6, 4, 6, 5,-1,-1,-1,-1],
      [-1,-1,-1,-1,-1,-1,-1,-1,-1,-1] ],
    [ [ 4, 2, 6, 4, 6, 5,-1,-1,-1,-1],
      [-1,-1,-1,-1,-1,-1,-1,-1,-1,-1] ] ]

/-- The array read `maps[m][i][j]` (0 outside the array, where C++ has no
defined value; every theorem below keeps the indices in range). -/
def mapsAt (m i j : Nat) : Int :=
  ((maps.getD m []).getD i []).getD j 0

/-- The array read `switches[m][a][b]` (0 outside the array). -/
def switchesAt (m a b : Nat) : Int :=
  ((switches.getD m []).getD a []).getD b 0

/-- The globals of the program. -/
structure Game where
  /-- -1 = lost; 0 = in progress, 1 = won -/
  game_progress : Int
  take_action : Bool
  last_move : Int
  piece : cuboid
  mapInd : Nat
  grid : List tiles
  fall_speed : ℚ
  deriving DecidableEq, Repr

/-- The footprint recomputation that ends `cuboid::move`. -/
def cuboid.footprints (p : cuboid) : cuboid :=
  if p.state = 0 then
    { p with
      one_x := p.x - side / 2, two_x := p.x + side / 2,
      one_y := p.y, two_y := p.y,
      one_z := p.z, two_z := p.z }
  else if p.state = 1 then
    { p with
      one_x := p.x, two_x := p.x,
      one_y := p.y + side / 2, two_y := p.y - side / 2,
      one_z := p.z, two_z := p.z }
  else if p.state = 2 then
    { p with
      one_x := p.x, two_x := p.x,
      one_y := p.y, two_y := p.y,
      one_z := p.z + side / 2, two_z := p.z - side / 2 }
  else p

/-- The direction dispatch of `cuboid::move`, after `moves++`. -/
def cuboid.roll (p : cuboid) (dir : Int) : cuboid :=
  if dir = 0 then
    let p := { p with rotation := Turn.zPlus :: p.rotation }
    if p.state = 0 then
      { p with state := 1, x := p.x - (side + side / 2), y := p.y + side / 2 }
    else if p.state = 1 then
      { p with state := 0, x := p.x - (side + side / 2), y := p.y - side / 2 }
    else if p.state = 2 then
      { p with x := p.x - side }
    else p
  else if dir = 1 then
    let p := { p with rotation := Turn.zMinus :: p.rotation }
    if p.state = 0 then
      { p with state := 1, x := p.x + (side + side / 2), y := p.y + side / 2 }
    else if p.state = 1 then
      { p with state := 0, x := p.x + (side + side / 2), y := p.y - side / 2 }
    else if p.state = 2 then
      { p with x := p.x + side }
    else p
  else if dir = 2 then
    let p := { p with rotation := Turn.xMinus :: p.rotation }
    if p.state = 0 then
      { p with z := p.z - side }
    else if p.state = 1 then
      { p with state := 2, z := p.z - (side + side / 2), y := p.y - side / 2 }
    else if p.state = 2 then
      { p with state := 1, z := p.z - (side + side / 2), y := p.y + side / 2 }
    else p
  else if dir = 3 then
    let p := { p with rotation := Turn.xPlus :: p.rotation }
    if p.state = 0 then
      { p with z := p.z + side }
    else if p.state = 1 then
      { p with state := 2, z := p.z + (side + side / 2), y := p.y - side / 2 }
    else if p.state = 2 then
      { p with state := 1, z := p.z + (side + side / 2), y := p.y + side / 2 }
    else p
  else p

/-- `cuboid::move(int dir)` on the global `piece`; 0 = Left, 1 = Right,
2 = Up, 3 = Down.  It writes the global `last_move` first and returns at
once unless `game_progress` is 0. -/
def move (g : Game) (dir : Int) : Game :=
  let g := { g with last_move := dir }
  if g.game_progress ≠ 0 then g
  else
    let p := { g.piece with moves := g.piece.moves + 1 }
    { g with piece := (p.roll dir).footprints }

/-- One cell `(i, j)` of the double loop of `init_grid`. -/
def init_grid_cell (g : Game) (i j : Nat) : Game :=
  if mapsAt g.mapInd i j ≠ 0 then
    if mapsAt g.mapInd i j = -1 then
      let tile := tiles.new i j 1 1
      let p := g.piece
      let p := { p with x := (((i : Int) - map_center_i : Int) : ℚ) * side }
      let p := { p with y := 0 }
      let p := { p with z := -1 * (((j : Int) - map_center_j : Int) : ℚ) * side }
      let p := { p with one_x := p.x, two_x := p.x }
      let p := { p with one_y := p.y + side / 2 }
      let p := { p with two_y := p.y - side / 2 }
      let p := { p with one_z := p.z, two_z := p.z }
      let p := { p with rotation := [] }
      let p := { p with state := 1 }
      { g with piece := p, grid := g.grid ++ [tile] }
    else
      { g with grid := g.grid ++ [tiles.new i j (mapsAt g.mapInd i j) 0] }
  else g

/-- `init_grid()`: resets the outcome, empties `grid` and rebuilds it from
`maps[mapInd]`, row by row. -/
def init_grid (g : Game) : Game :=
  let g := { g with game_progress := 0, take_action := false, grid := [] }
  (List.range max_map_size).foldl
    (fun g i => (List.range max_map_size).foldl (fun g j => init_grid_cell g i j) g) g

/-- `is_occupied(int cube, float x, float z)`. -/
def is_occupied (g : Game) (cube : Int) (x z : ℚ) : Bool :=
  if cube = 1 ∧ g.piece.one_x = x ∧ g.piece.one_z = z then true
  else if cube = 2 ∧ g.piece.two_x = x ∧ g.piece.two_z = z then true
  else false

/-- C's `!v` on an `int`, stored back into an `int`. -/
def cNot (v : Int) : Int := if v = 0 then 1 else 0

/-- The conversion of a C++ `bool` to `int`. -/
def boolToInt (b : Bool) : Int := if b then 1 else 0

/-- The body of the innermost loop of `toggle_bridge` on one tile:
`show = !show` when the tile's `(i, j)` is `(p, q)`. -/
def flip_tile (t : tiles) (p q : Int) : tiles :=
  if t.i = p ∧ t.j = q then { t with show_ := cNot t.show_ } else t

/-- The innermost loop of `toggle_bridge`, over all of `grid`. -/
def flip_show (grid : List tiles) (p q : Int) : List tiles :=
  grid.map (fun t => flip_tile t p q)

/-- `toggle_bridge(int i, int j)`: for every row `a` of the switch table of
the current level whose first pair is `(i, j)`, and every later pair
`b = 2, 4, 6, 8` of that row, flip the tiles at that pair. -/
def toggle_bridge (g : Game) (i j : Int) : Game :=
  (List.range max_switches).foldl
    (fun g a =>
      if switchesAt g.mapInd a 0 = i ∧ switchesAt g.mapInd a 1 = j then
        [2, 4, 6, 8].foldl
          (fun g b =>
            { g with grid := flip_show g.grid (switchesAt g.mapInd a b)
                                (switchesAt g.mapInd a (b + 1)) })
          g
      else g)
    g

/-- The assignment `grid[i].state = v`. -/
def set_state (grid : List tiles) (i : Nat) (v : Int) : List tiles :=
  match grid[i]? with
  | some t => grid.set i { t with state := v }
  | none => grid

/-- The assignment `grid[i].show = v`. -/
def set_show (grid : List tiles) (i : Nat) (v : Int) : List tiles :=
  match grid[i]? with
  | some t => grid.set i { t with show_ := v }
  | none => grid

/-- The state threaded through the grid loop of `draw`: the globals and the
two locals `off_grid_1`, `off_grid_2`. -/
structure Pass where
  g : Game
  off_grid_1 : Bool
  off_grid_2 : Bool
  deriving DecidableEq, Repr

/-- The body of the grid loop of `draw` for index `i`; `occ` is the value
`(occupied1 || occupied2)` written to `grid[i].state`. -/
def draw_tile (s : Pass) (i : Nat) : Pass :=
  match s.g.grid[i]? with
  | none => s
  | some t =>
    let occupied1 := is_occupied s.g 1 t.x t.z
    let occupied2 := is_occupied s.g 2 t.x t.z
    let occ := boolToInt (occupied1 || occupied2)
    let s := if occupied1 then { s with off_grid_1 := false } else s
    let s := if occupied2 then { s with off_grid_2 := false } else s
    if t.type = 1 then
      { s with g := { s.g with grid := set_state s.g.grid i occ } }
    else if t.type = 2 then
      let s := { s with g := { s.g with grid := set_state s.g.grid i occ } }
      if occupied1 && occupied2 then
        { g := { s.g with grid := set_show s.g.grid i 0 },
          off_grid_1 := true, off_grid_2 := true }
      else s
    else if t.type = 3 then
      let s := { s with g := { s.g with grid := set_state s.g.grid i occ } }
      if occ = 1 ∧ t.show_ = 0 then
        { s with off_grid_1 := true, off_grid_2 := true }
      else s
    else if t.type = 4 then
      let s :=
        if occupied1 || occupied2 then
          if t.state = 0 then { s with g := toggle_bridge s.g t.i t.j } else s
        else s
      { s with g := { s.g with grid := set_state s.g.grid i occ } }
    else if t.type = 5 then
      let s := { s with g := { s.g with grid := set_state s.g.grid i occ } }
      if occupied1 && occupied2 then
        { s with g := { s.g with game_progress := 1 } }
      else s
    else s

/-- The grid loop of `draw`, from `off_grid_1 = off_grid_2 = true`. -/
def draw_loop (g : Game) : Pass :=
  (List.range g.grid.length).foldl draw_tile
    { g := g, off_grid_1 := true, off_grid_2 := true }

/-- The evaluation pass of `draw`: the grid loop followed by the off-grid
check, which replays `last_move` and sets the outcome to lost. -/
def draw_grid (g : Game) : Game :=
  let s := draw_loop g
  if s.off_grid_1 || s.off_grid_2 then
    { (move s.g s.g.last_move) with game_progress := -1 }
  else s.g

/-! ## Definitions that follow the specification's words -/

/-- The transition table of the specification for side 1, keyed by
`(orientation, direction)`: the new orientation and the shift of the center
in x, y and z.  Orientation 0 = AlongX, 1 = AlongY (upright), 2 = AlongZ;
direction 0 = Left, 1 = Right, 2 = Up, 3 = Down. -/
def transition_table (orientation dir : Int) : Int × ℚ × ℚ × ℚ :=
  if dir = 0 then
    if orientation = 0 then (1, -3/2, 1/2, 0)
    else if orientation = 1 then (0, -3/2, -1/2, 0)
    else (2, -1, 0, 0)
  else if dir = 1 then
    if orientation = 0 then (1, 3/2, 1/2, 0)
    else if orientation = 1 then (0, 3/2, -1/2, 0)
    else (2, 1, 0, 0)
  else if dir = 2 then
    if orientation = 0 then (0, 0, 0, -1)
    else if orientation = 1 then (2, 0, -1/2, -3/2)
    else (1, 0, 1/2, -3/2)
  else
    if orientation = 0 then (0, 0, 0, 1)
    else if orientation = 1 then (2, 0, -1/2, 3/2)
    else (1, 0, 1/2, 3/2)

/-- The globals at program start: zero-initialised `game_progress`, the
constructed `piece`, `last_move = -1`, no grid yet. -/
def startGame : Game :=
  { game_progress := 0, take_action := false, last_move := -1,
    piece := cuboid.new, mapInd := 0, grid := [], fall_speed := 0 }

/-- The footprint invariant of the specification on one axis: the two
footprint coordinates are the center coordinate minus and plus one half, in
either order (so they are exactly one unit apart). -/
def half_apart (one two center : ℚ) : Prop :=
  (one = center - 1/2 ∧ two = center + 1/2) ∨ (one = center + 1/2 ∧ two = center - 1/2)

instance (one two center : ℚ) : Decidable (half_apart one two center) := by
  unfold half_apart; infer_instance

/-- The footprint invariant of the specification: the footprints are one
unit apart along the axis named by the orientation and equal the center on
the other two axes. -/
def footprint_invariant (p : cuboid) : Prop :=
  (p.state = 0 ∧ half_apart p.one_x p.two_x p.x ∧
    p.one_y = p.y ∧ p.two_y = p.y ∧ p.one_z = p.z ∧ p.two_z = p.z) ∨
  (p.state = 1 ∧ half_apart p.one_y p.two_y p.y ∧
    p.one_x = p.x ∧ p.two_x = p.x ∧ p.one_z = p.z ∧ p.two_z = p.z) ∨
  (p.state = 2 ∧ half_apart p.one_z p.two_z p.z ∧
    p.one_x = p.x ∧ p.two_x = p.x ∧ p.one_y = p.y ∧ p.two_y = p.y)

instance (p : cuboid) : Decidable (footprint_invariant p) := by
  unfold footprint_invariant; infer_instance

/-- The non-zero cells of level `m`, in row-major order. -/
def level_cells (m : Nat) : List (Nat × Nat) :=
  (List.range max_map_size).flatMap fun i =>
    ((List.range max_map_size).filter fun j => mapsAt m i j ≠ 0).map fun j => (i, j)

/-- The tile kind of a cell: its code, the start cell -1 being Regular. -/
def cell_kind (m i j : Nat) : Int :=
  if mapsAt m i j = -1 then 1 else mapsAt m i j

/-- What the specification fixes of a tile: grid coordinates, kind, world
x and z, and whether it is invisible. -/
def tile_view (t : tiles) : Int × Int × Int × ℚ × ℚ × Bool :=
  (t.i, t.j, t.type, t.x, t.z, decide (t.show_ = 0))

/-- The view the specification gives for the tile of cell `c` of level `m`:
kind from the cell code, x = i - 5, z = -(j - 5), invisible exactly when
the kind is Bridge. -/
def cell_view (m : Nat) (c : Nat × Nat) : Int × Int × Int × ℚ × ℚ × Bool :=
  (c.1, c.2, cell_kind m c.1 c.2, (c.1 : ℚ) - 5, -((c.2 : ℚ) - 5),
    decide (cell_kind m c.1 c.2 = 3))

/-- The tile `init_grid` pushes for the non-zero cell `c` of level `m`. -/
def built_tile (m : Nat) (c : Nat × Nat) : tiles :=
  tiles.new c.1 c.2 (cell_kind m c.1 c.2) (if mapsAt m c.1 c.2 = -1 then 1 else 0)

/-- The pose `init_grid` gives the piece at the start cell (6, 1) of both
shipped levels; `moves` is not reset. -/
def start_pose (p : cuboid) : cuboid :=
  { p with state := 1, rotation := [], x := 1, y := 0, z := 4,
           one_x := 1, one_y := 1/2, one_z := 4,
           two_x := 1, two_y := -1/2, two_z := 4 }

/-! ## The grid pass, tile by tile -/

/-- The local `occupied1` of the grid loop for tile `t`. -/
def occupied1 (g : Game) (t : tiles) : Bool := is_occupied g 1 t.x t.z

/-- The local `occupied2` of the grid loop for tile `t`. -/
def occupied2 (g : Game) (t : tiles) : Bool := is_occupied g 2 t.x t.z

/-- What one call `toggle_bridge(i, j)` on level `m` does to a single tile:
the flips of `toggle_bridge`, in its order, applied to that tile. -/
def toggle_tile (m : Nat) (i j : Int) (t : tiles) : tiles :=
  (List.range max_switches).foldl
    (fun t a =>
      if switchesAt m a 0 = i ∧ switchesAt m a 1 = j then
        [2, 4, 6, 8].foldl
          (fun t b => flip_tile t (switchesAt m a b) (switchesAt m a (b + 1))) t
      else t)
    t

/-- Whether the loop body for tile `t` calls `toggle_bridge`: a switch with
a footprint on it whose recorded `state` is 0. -/
def fires (g : Game) (t : tiles) : Bool :=
  decide (t.type = 4) && (occupied1 g t || occupied2 g t) && decide (t.state = 0)

/-- What the loop body for tile `t` writes to its own entry `u` of `grid`:
`state` for the five kinds, and `show = 0` for a fragile tile under both
footprints. -/
def own_update (g : Game) (t u : tiles) : tiles :=
  if t.type = 1 ∨ t.type = 3 ∨ t.type = 4 ∨ t.type = 5 then
    { u with state := boolToInt (occupied1 g t || occupied2 g t) }
  else if t.type = 2 then
    { u with state := boolToInt (occupied1 g t || occupied2 g t),
             show_ := if occupied1 g t && occupied2 g t then 0 else u.show_ }
  else u

/-- What the loop body for index `i`, whose tile reads `t`, does to the
entry `u` at index `k`. -/
def tile_step (g : Game) (t : tiles) (i k : Nat) (u : tiles) : tiles :=
  if k = i then
    own_update g t (if fires g t then toggle_tile g.mapInd t.i t.j u else u)
  else if fires g t then toggle_tile g.mapInd t.i t.j u else u

/-- The fields of a tile that nothing writes after construction. -/
def same_static (t u : tiles) : Prop :=
  t.type = u.type ∧ t.i = u.i ∧ t.j = u.j ∧ t.x = u.x ∧ t.y = u.y ∧ t.z = u.z

instance (t u : tiles) : Decidable (same_static t u) := by
  unfold same_static; infer_instance

/-- What the grid loop leaves alone after `n` iterations from `g`: the
piece, the level index, `last_move`, the length of `grid`, the constructed
fields of every tile, and `state` of the tiles not yet visited. -/
def Frame (g : Game) (n : Nat) (s : Pass) : Prop :=
  s.g.piece = g.piece ∧ s.g.mapInd = g.mapInd ∧ s.g.last_move = g.last_move ∧
  s.g.take_action = g.take_action ∧ s.g.fall_speed = g.fall_speed ∧
  s.g.grid.length = g.grid.length ∧
  ∀ k t0, g.grid[k]? = some t0 →
    ∃ t, s.g.grid[k]? = some t ∧ same_static t t0 ∧ (n ≤ k → t.state = t0.state)

/-- Footprint one has the `(x, z)` of tile `t`. -/
def footprint1_on (g : Game) (t : tiles) : Prop :=
  g.piece.one_x = t.x ∧ g.piece.one_z = t.z

/-- Footprint two has the `(x, z)` of tile `t`. -/
def footprint2_on (g : Game) (t : tiles) : Prop :=
  g.piece.two_x = t.x ∧ g.piece.two_z = t.z

instance (g : Game) (t : tiles) : Decidable (footprint1_on g t) := by
  unfold footprint1_on; infer_instance

instance (g : Game) (t : tiles) : Decidable (footprint2_on g t) := by
  unfold footprint2_on; infer_instance

/-- The tile's world x and z are the ones its constructor derives from its
grid coordinates. -/
def built (t : tiles) : Prop :=
  t.x = (tiles.new t.i t.j t.type t.state).x ∧ t.z = (tiles.new t.i t.j t.type t.state).z

instance (t : tiles) : Decidable (built t) := by
  unfold built; infer_instance

/-- The tiles of the grid have pairwise distinct grid coordinates. -/
def distinct_coords (grid : List tiles) : Prop :=
  (grid.map fun t => (t.i, t.j)).Nodup

instance (grid : List tiles) : Decidable (distinct_coords grid) := by
  unfold distinct_coords; infer_instance

/-- A small grid for concrete checks: the switch (4,2), two regular tiles,
the two bridges the switch is linked to, a goal and a fragile tile. -/
def demoGrid : List tiles :=
  [tiles.new 4 2 4 0, tiles.new 5 2 1 0, tiles.new 6 2 1 0, tiles.new 6 4 3 0,
   tiles.new 6 5 3 0, tiles.new 3 2 5 0, tiles.new 8 0 2 0]

/-- A piece with orientation `st` and horizontal center `(x, z)`, footprints
derived as `move` derives them. -/
def demoPiece (st : Int) (x z : ℚ) : cuboid :=
  ({ cuboid.new with state := st, x := x, z := z } : cuboid).footprints

/-- A game in progress on `demoGrid` with the piece at `(x, z)`. -/
def demoGame (st : Int) (x z : ℚ) : Game :=
  { startGame with piece := demoPiece st x z, grid := demoGrid }

/-- The bridge coordinates that the switch table of level `m` lists for the
switch at `(i, j)`: the pairs after the first of every row whose first pair
is `(i, j)`; entries -1 are fillers, not coordinates. -/
def links_of (m : Nat) (i j : Int) : List (Int × Int) :=
  (List.range max_switches).flatMap fun a =>
    if switchesAt m a 0 = i ∧ switchesAt m a 1 = j then
      ([2, 4, 6, 8].map fun b => (switchesAt m a b, switchesAt m a (b + 1))).filter
        fun p => decide (0 ≤ p.1 ∧ 0 ≤ p.2)
    else []

/-- All bridge coordinates the switch table of level `m` lists, for any
switch. -/
def switch_links (m : Nat) : List (Int × Int) :=
  (List.range max_switches).flatMap fun a =>
    ([2, 4, 6, 8].map fun b => (switchesAt m a b, switchesAt m a (b + 1))).filter
      fun p => decide (0 ≤ p.1 ∧ 0 ≤ p.2)

/-- A run of rounds, each a sequence of `move` calls (possibly empty)
followed by one evaluation pass. -/
def play (g : Game) (rounds : List (List Int)) : Game :=
  rounds.foldl (fun g dirs => draw_grid (dirs.foldl move g)) g

/-- The switch table of the current level names only Bridge tiles: every
tile of the grid at listed bridge coordinates has type 3. -/
def links_only_bridges (g : Game) : Prop :=
  ∀ u ∈ g.grid, (u.i, u.j) ∈ switch_links g.mapInd → u.type = 3

instance (g : Game) : Decidable (links_only_bridges g) := by
  unfold links_only_bridges; infer_instance

/-- Tile `sw`, entry `k` of the grid, is a switch that the pass from `g`
newly enters: its recorded `state` is 0 and a footprint is on it. -/
def newly_entered (g : Game) (k : Nat) (sw : tiles) : Prop :=
  g.grid[k]? = some sw ∧ sw.type = 4 ∧ sw.state = 0 ∧
    (footprint1_on g sw ∨ footprint2_on g sw)

instance (g : Game) (k : Nat) (sw : tiles) : Decidable (newly_entered g k sw) := by
  unfold newly_entered; infer_instance

/-- From grid `before` to grid `after`, every tile that level `m` links to
the switch at `(i, j)` changed between invisible (`show = 0`) and visible. -/
def flips_links (m : Nat) (i j : Int) (before after : List tiles) : Prop :=
  ∀ (l : Nat) (q : tiles), before[l]? = some q → (q.i, q.j) ∈ links_of m i j →
    ∃ u, after[l]? = some u ∧ (u.show_ = 0 ↔ q.show_ ≠ 0)

/-- From grid `before` to grid `after`, no tile changed its `show`. -/
def same_shows (before after : List tiles) : Prop :=
  ∀ (l : Nat) (q : tiles), before[l]? = some q → ∃ u, after[l]? = some u ∧ u.show_ = q.show_

/-- Whether `(i, j)` is the first pair of some row of the switch table of
level `m`. -/
def is_switch_coord (m : Nat) (i j : Int) : Prop :=
  ∃ a ∈ List.range max_switches, switchesAt m a 0 = i ∧ switchesAt m a 1 = j

instance (m : Nat) (i j : Int) : Decidable (is_switch_coord m i j) := by
  unfold is_switch_coord; infer_instance

/-- Every visibility flag of the grid is 0 or 1. -/
def shows_boolean (grid : List tiles) : Prop :=
  ∀ t ∈ grid, t.show_ = 0 ∨ t.show_ = 1

instance (grid : List tiles) : Decidable (shows_boolean grid) := by
  unfold shows_boolean; infer_instance

/-- The `GLFW_KEY_N` case of `keyboard` (key release): advance to the next
level after a win. -/
def key_N (g : Game) : Game :=
  if g.mapInd + 1 ≠ max_maps ∧ g.game_progress = 1 then
    init_grid { g with mapInd := g.mapInd + 1 }
  else g

/-- The `GLFW_KEY_R` case of `keyboard` (key release): restart the level; the
case has no `break` and falls through into the `GLFW_KEY_N` case. -/
def key_R (g : Game) : Game :=
  key_N (if g.mapInd ≠ max_maps then init_grid g else g)

/-- The `GLFW_KEY_ENTER` case of `keyboard` (key press): back to level 0
with `piece.moves = 0`. -/
def key_ENTER (g : Game) : Game :=
  init_grid { g with mapInd := 0, piece := { g.piece with moves := 0 } }

/-- Whether the pass from `g` executes its replay `move(last_move)` with the
outcome still InProgress: an off-grid flag is set and the loop has not set
the outcome. -/
def replays (g : Game) : Bool :=
  ((draw_loop g).off_grid_1 || (draw_loop g).off_grid_2) &&
    decide ((draw_loop g).g.game_progress = 0)

/-- The number of `move` calls executed with outcome InProgress during the
rounds from `g`: the move commands accepted and the replays. -/
def executed_moves (g : Game) : List (List Int) → Int
  | [] => 0
  | dirs :: rounds =>
    (if g.game_progress = 0 then (dirs.length : Int) else 0) +
      (if replays (dirs.foldl move g) then 1 else 0) +
      executed_moves (draw_grid (dirs.foldl move g)) rounds

/-- The cell step of `init_grid` with the level array `maps[mapInd]` as the
parameter `lv`, so that the loader can be stated on any level data. -/
def load_cell (lv : Nat → Nat → Int) (g : Game) (i j : Nat) : Game :=
  if lv i j ≠ 0 then
    if lv i j = -1 then
      let tile := tiles.new i j 1 1
      let p := g.piece
      let p := { p with x := (((i : Int) - map_center_i : Int) : ℚ) * side }
      let p := { p with y := 0 }
      let p := { p with z := -1 * (((j : Int) - map_center_j : Int) : ℚ) * side }
      let p := { p with one_x := p.x, two_x := p.x }
      let p := { p with one_y := p.y + side / 2 }
      let p := { p with two_y := p.y - side / 2 }
      let p := { p with one_z := p.z, two_z := p.z }
      let p := { p with rotation := [] }
      let p := { p with state := 1 }
      { g with piece := p, grid := g.grid ++ [tile] }
    else
      { g with grid := g.grid ++ [tiles.new i j (lv i j) 0] }
  else g

/-- The body of `init_grid` with the level array as the parameter `lv`;
`init_grid g` is `load_level (mapsAt g.mapInd) g`. -/
def load_level (lv : Nat → Nat → Int) (g : Game) : Game :=
  let g := { g with game_progress := 0, take_action := false, grid := [] }
  (List.range max_map_size).foldl
    (fun g i => (List.range max_map_size).foldl (fun g j => load_cell lv g i j) g) g

/-- The non-zero cells of the level array `lv`, in row-major order. -/
def cells_of (lv : Nat → Nat → Int) : List (Nat × Nat) :=
  (List.range max_map_size).flatMap fun i =>
    ((List.range max_map_size).filter fun j => lv i j ≠ 0).map fun j => (i, j)

/-- The tile the loader pushes for the non-zero cell `c` of `lv`. -/
def loaded_tile (lv : Nat → Nat → Int) (c : Nat × Nat) : tiles :=
  tiles.new c.1 c.2 (if lv c.1 c.2 = -1 then 1 else lv c.1 c.2)
    (if lv c.1 c.2 = -1 then 1 else 0)

/-- Level data with one regular cell and no start cell. -/
def noStartLevel (i j : Nat) : Int := if i = 0 ∧ j = 0 then 1 else 0

/-- Level 0 with the cell (6,4), which the switch table links, made a
regular tile instead of a bridge. -/
def badLinkLevel (i j : Nat) : Int := if i = 6 ∧ j = 4 then 1 else mapsAt 0 i j

/-- The game after each round of `play`, in order: the moves of the round
are applied, then one evaluation pass. -/
def history : Game → List (List Int) → List Game
  | _, [] => []
  | g, dirs :: rest =>
    draw_grid (dirs.foldl move g) :: history (draw_grid (dirs.foldl move g)) rest

/-- The outcome after each round of `play`: the value of `game_progress`
after the evaluation pass that ends the round, in order. -/
def outcomes (g : Game) (rounds : List (List Int)) : List Int :=
  (history g rounds).map fun h => h.game_progress

/-- Both footprints of the cuboid are on a tile of the grid with grid
coordinates `(i, j)`, type `ty` and visibility flag `sh`. -/
def stands_on (g : Game) (i j ty sh : Int) : Prop :=
  ∃ t ∈ g.grid, t.i = i ∧ t.j = j ∧ t.type = ty ∧ t.show_ = sh ∧
    footprint1_on g t ∧ footprint2_on g t

instance (g : Game) (i j ty sh : Int) : Decidable (stands_on g i j ty sh) := by
  unfold stands_on; infer_instance

/-- Some footprint of the cuboid is on a tile of the grid with grid
coordinates `(i, j)` and type `ty`. -/
def touches (g : Game) (i j ty : Int) : Prop :=
  ∃ t ∈ g.grid, t.i = i ∧ t.j = j ∧ t.type = ty ∧ (footprint1_on g t ∨ footprint2_on g t)

instance (g : Game) (i j ty : Int) : Decidable (touches g i j ty) := by
  unfold touches; infer_instance

/-- The visibility flags of the tiles of the grid with grid coordinates
`(i, j)`, in grid order. -/
def shows_at (g : Game) (i j : Int) : List Int :=
  (g.grid.filter fun t => t.i = i ∧ t.j = j).map fun t => t.show_

/-- What holds of the game along every run from the load of a shipped level
(`attempt_ok_run`): the level is a shipped one and its switch table names
only bridges, the grid has built tiles with pairwise distinct coordinates,
the outcome is one of the three values, a fragile tile is invisible only
when the outcome is decided, and the outcome is Won only with both
footprints on a goal tile. -/
def attempt_ok (g : Game) : Prop :=
  g.mapInd < max_maps ∧ links_only_bridges g ∧
  (∀ t ∈ g.grid, built t) ∧ distinct_coords g.grid ∧
  (g.game_progress = 0 ∨ g.game_progress = 1 ∨ g.game_progress = -1) ∧
  (∀ t ∈ g.grid, t.type = 2 → t.show_ = 0 → g.game_progress ≠ 0) ∧
  (g.game_progress = 1 →
    ∃ u ∈ g.grid, u.type = 5 ∧ footprint1_on g u ∧ footprint2_on g u)

instance (g : Game) : Decidable (attempt_ok g) := by
  unfold attempt_ok; infer_instance

/-- C1: with outcome InProgress, for each of the three orientations and four
directions, `move` changes the orientation and the center exactly as the
transition table of the specification says. -/
theorem move_eq_transition_table (g : Game) (dir : Int) (hp : g.game_progress = 0)
    (hs : g.piece.state = 0 ∨ g.piece.state = 1 ∨ g.piece.state = 2)
    (hd : dir = 0 ∨ dir = 1 ∨ dir = 2 ∨ dir = 3) :
    (move g dir).piece.state = (transition_table g.piece.state dir).1 ∧
    (move g dir).piece.x = g.piece.x + (transition_table g.piece.state dir).2.1 ∧
    (move g dir).piece.y = g.piece.y + (transition_table g.piece.state dir).2.2.1 ∧
    (move g dir).piece.z = g.piece.z + (transition_table g.piece.state dir).2.2.2 := by
  rcases hs with hs | hs | hs <;> rcases hd with hd | hd | hd | hd <;>
    (refine ⟨?_, ?_, ?_, ?_⟩ <;>
      simp [move, hp, hs, hd, cuboid.roll, cuboid.footprints, transition_table, side] <;>
      ring)

theorem move_eq_transition_table_witness :
    startGame.game_progress = 0 ∧
    (startGame.piece.state = 0 ∨ startGame.piece.state = 1 ∨ startGame.piece.state = 2) ∧
    (move startGame 2).piece.state = (transition_table startGame.piece.state 2).1 ∧
    (move startGame 2).piece.x = startGame.piece.x + (transition_table startGame.piece.state 2).2.1 ∧
    (move startGame 2).piece.y =
      startGame.piece.y + (transition_table startGame.piece.state 2).2.2.1 ∧
    (move startGame 2).piece.z =
      startGame.piece.z + (transition_table startGame.piece.state 2).2.2.2 :=
  ⟨rfl, by decide, move_eq_transition_table startGame 2 rfl (by decide) (by decide)⟩

/-- C9: when the outcome is not InProgress, `move` writes `last_move` and
nothing else: the piece (orientation, center, footprints, rotation, moves)
and every other global are unchanged. -/
theorem move_ignored_when_over (g : Game) (dir : Int) (hp : g.game_progress ≠ 0) :
    (move g dir).piece = g.piece ∧ (move g dir).last_move = dir ∧
    move g dir = { g with last_move := dir } := by
  simp [move, hp]

theorem move_ignored_when_over_witness :
    ({ startGame with game_progress := -1 } : Game).game_progress ≠ 0 ∧
    (move { startGame with game_progress := -1 } 3).piece =
      ({ startGame with game_progress := -1 } : Game).piece ∧
    (move { startGame with game_progress := -1 } 3).last_move = 3 ∧
    move { startGame with game_progress := -1 } 3 =
      { ({ startGame with game_progress := -1 } : Game) with last_move := 3 } :=
  ⟨by decide, move_ignored_when_over { startGame with game_progress := -1 } 3 (by decide)⟩

/-- C7 (as stated, refuted): from the constructed cuboid with outcome
InProgress, four Left moves do not restore the center: x goes from 0 to -6. -/
theorem four_lefts_not_identity :
    startGame.game_progress = 0 ∧
    (move (move (move (move startGame 0) 0) 0) 0).piece.x = -6 ∧
    ¬ ((move (move (move (move startGame 0) 0) 0) 0).piece.state = startGame.piece.state ∧
      (move (move (move (move startGame 0) 0) 0) 0).piece.x = startGame.piece.x ∧
      (move (move (move (move startGame 0) 0) 0) 0).piece.y = startGame.piece.y ∧
      (move (move (move (move startGame 0) 0) 0) 0).piece.z = startGame.piece.z) := by
  decide!

/-- C7 (amended): with outcome InProgress, four Left moves, and four Right
moves, restore the orientation and the y and z of the center, and shift x
by 6 (lying along x or upright) or 4 (lying along z), to the left resp. to
the right. -/
theorem four_rolls_shift (g : Game) (hp : g.game_progress = 0)
    (hs : g.piece.state = 0 ∨ g.piece.state = 1 ∨ g.piece.state = 2) :
    ((move (move (move (move g 0) 0) 0) 0).piece.state = g.piece.state ∧
      (move (move (move (move g 0) 0) 0) 0).piece.y = g.piece.y ∧
      (move (move (move (move g 0) 0) 0) 0).piece.z = g.piece.z ∧
      (move (move (move (move g 0) 0) 0) 0).piece.x =
        g.piece.x - (if g.piece.state = 2 then 4 else 6)) ∧
    ((move (move (move (move g 1) 1) 1) 1).piece.state = g.piece.state ∧
      (move (move (move (move g 1) 1) 1) 1).piece.y = g.piece.y ∧
      (move (move (move (move g 1) 1) 1) 1).piece.z = g.piece.z ∧
      (move (move (move (move g 1) 1) 1) 1).piece.x =
        g.piece.x + (if g.piece.state = 2 then 4 else 6)) := by
  rcases hs with hs | hs | hs <;>
    (refine ⟨⟨?_, ?_, ?_, ?_⟩, ?_, ?_, ?_, ?_⟩ <;>
      simp [move, hp, hs, cuboid.roll, cuboid.footprints, side] <;>
      ring)

theorem four_rolls_shift_witness :
    startGame.game_progress = 0 ∧
    ((move (move (move (move startGame 0) 0) 0) 0).piece.state = startGame.piece.state ∧
      (move (move (move (move startGame 0) 0) 0) 0).piece.y = startGame.piece.y ∧
      (move (move (move (move startGame 0) 0) 0) 0).piece.z = startGame.piece.z ∧
      (move (move (move (move startGame 0) 0) 0) 0).piece.x =
        startGame.piece.x - (if startGame.piece.state = 2 then 4 else 6)) ∧
    ((move (move (move (move startGame 1) 1) 1) 1).piece.state = startGame.piece.state ∧
      (move (move (move (move startGame 1) 1) 1) 1).piece.y = startGame.piece.y ∧
      (move (move (move (move startGame 1) 1) 1) 1).piece.z = startGame.piece.z ∧
      (move (move (move (move startGame 1) 1) 1) 1).piece.x =
        startGame.piece.x + (if startGame.piece.state = 2 then 4 else 6)) :=
  ⟨rfl, four_rolls_shift startGame rfl (by decide)⟩

/-! ## Level load -/

theorem init_grid_cell_frame (g : Game) (i j : Nat) :
    (init_grid_cell g i j).mapInd = g.mapInd ∧
    (init_grid_cell g i j).game_progress = g.game_progress := by
  unfold init_grid_cell; split <;> [split; skip] <;> exact ⟨rfl, rfl⟩

theorem init_grid_cell_grid (g : Game) (i j : Nat) :
    (init_grid_cell g i j).grid =
      g.grid ++ (if mapsAt g.mapInd i j ≠ 0 then [built_tile g.mapInd (i, j)] else []) := by
  unfold init_grid_cell built_tile cell_kind
  by_cases h0 : mapsAt g.mapInd i j = 0
  · simp [h0]
  · by_cases h1 : mapsAt g.mapInd i j = -1
    · simp [h1]
    · simp [h0, h1]

theorem init_grid_row (i : Nat) (js : List Nat) (g : Game) :
    (js.foldl (fun g j => init_grid_cell g i j) g).mapInd = g.mapInd ∧
    (js.foldl (fun g j => init_grid_cell g i j) g).game_progress = g.game_progress ∧
    (js.foldl (fun g j => init_grid_cell g i j) g).grid =
      g.grid ++ ((js.filter fun j => mapsAt g.mapInd i j ≠ 0).map
        fun j => built_tile g.mapInd (i, j)) := by
  induction js generalizing g with
  | nil => simp
  | cons j js ih =>
    obtain ⟨h1, h2, h3⟩ := ih (init_grid_cell g i j)
    obtain ⟨c1, c2⟩ := init_grid_cell_frame g i j
    rw [List.foldl_cons]
    refine ⟨by rw [h1, c1], by rw [h2, c2], ?_⟩
    rw [h3, init_grid_cell_grid, c1]
    by_cases h0 : mapsAt g.mapInd i j = 0
    · simp [List.filter_cons, h0]
    · simp [List.filter_cons, h0]

theorem init_grid_rows (js : List Nat) (is : List Nat) (g : Game) :
    (is.foldl (fun g i => js.foldl (fun g j => init_grid_cell g i j) g) g).mapInd = g.mapInd ∧
    (is.foldl (fun g i => js.foldl (fun g j => init_grid_cell g i j) g) g).game_progress =
      g.game_progress ∧
    (is.foldl (fun g i => js.foldl (fun g j => init_grid_cell g i j) g) g).grid =
      g.grid ++ ((is.flatMap fun i =>
        (js.filter fun j => mapsAt g.mapInd i j ≠ 0).map fun j => (i, j)).map
          (built_tile g.mapInd)) := by
  induction is generalizing g with
  | nil => simp
  | cons i is ih =>
    obtain ⟨h1, h2, h3⟩ := ih (js.foldl (fun g j => init_grid_cell g i j) g)
    obtain ⟨r1, r2, r3⟩ := init_grid_row i js g
    rw [List.foldl_cons]
    refine ⟨by rw [h1, r1], by rw [h2, r2], ?_⟩
    rw [h3, r1, r3]
    simp [List.flatMap_cons, List.map_append, List.map_map, Function.comp_def]

/-- The grid after `init_grid`, for any level index. -/
theorem init_grid_grid (g : Game) :
    (init_grid g).grid = (level_cells g.mapInd).map (built_tile g.mapInd) := by
  unfold init_grid level_cells
  have h := (init_grid_rows (List.range max_map_size) (List.range max_map_size)
    { g with game_progress := 0, take_action := false, grid := [] }).2.2
  simpa using h

theorem init_grid_game_progress (g : Game) : (init_grid g).game_progress = 0 := by
  unfold init_grid
  exact (init_grid_rows (List.range max_map_size) (List.range max_map_size)
    { g with game_progress := 0, take_action := false, grid := [] }).2.1

/-- The piece after `init_grid` on a shipped level. -/
theorem init_grid_piece (g : Game) (hm : g.mapInd < max_maps) :
    (init_grid g).piece = start_pose g.piece := by
  obtain ⟨gp, ta, lm, p, m, gr, fs⟩ := g
  have hm' : m = 0 ∨ m = 1 := by simp [max_maps] at hm; omega
  rcases hm' with rfl | rfl <;>
    simp [init_grid, List.range, List.range.loop, max_map_size, init_grid_cell, mapsAt, maps,
      start_pose, side, map_center_i, map_center_j] <;> norm_num

theorem tile_view_built_tile (m : Nat) (c : Nat × Nat) :
    tile_view (built_tile m c) = cell_view m c := by
  simp only [tile_view, built_tile, cell_view, tiles.new, side, map_center_i, map_center_j]
  by_cases h : cell_kind m c.1 c.2 = 3 <;> simp [h]

theorem level_cells_nodup (m : Nat) (hm : m < max_maps) : (level_cells m).Nodup := by
  have hm' : m = 0 ∨ m = 1 := by simp [max_maps] at hm; omega
  rcases hm' with rfl | rfl <;> decide

/-- C10: on a shipped level, `init_grid` pushes one tile per non-zero cell, in
row-major order, each with the coordinates, kind (start cell: Regular),
world x = i - 5 and z = -(j - 5) of its cell and invisible exactly when a
Bridge; tile coordinates are pairwise distinct; the outcome is InProgress and
the piece stands upright with center (x, 0, z) of the start cell. -/
theorem init_grid_builds_level (g : Game) (hm : g.mapInd < max_maps) :
    (init_grid g).grid.map tile_view = (level_cells g.mapInd).map (cell_view g.mapInd) ∧
    ((init_grid g).grid.map fun t => (t.i, t.j)).Nodup ∧
    (init_grid g).game_progress = 0 ∧
    (init_grid g).piece.state = 1 ∧
    ∃ i j : Nat, i < max_map_size ∧ j < max_map_size ∧ mapsAt g.mapInd i j = -1 ∧
      (init_grid g).piece.x = (i : ℚ) - 5 ∧ (init_grid g).piece.y = 0 ∧
      (init_grid g).piece.z = -((j : ℚ) - 5) := by
  refine ⟨?_, ?_, init_grid_game_progress g, ?_, 6, 1, by decide, by decide, ?_, ?_, ?_, ?_⟩
  · rw [init_grid_grid, List.map_map]
    exact List.map_congr_left fun c _ => tile_view_built_tile g.mapInd c
  · rw [init_grid_grid, List.map_map]
    have hinj : Function.Injective
        ((fun t : tiles => (t.i, t.j)) ∘ built_tile g.mapInd) := by
      intro a b hab
      simp only [Function.comp, built_tile, tiles.new, Prod.mk.injEq, Nat.cast_inj] at hab
      exact Prod.ext hab.1 hab.2
    exact (level_cells_nodup g.mapInd hm).map hinj
  · rw [init_grid_piece g hm]; rfl
  · have hm' : g.mapInd = 0 ∨ g.mapInd = 1 := by simp [max_maps] at hm; omega
    rcases hm' with h | h <;> rw [h] <;> decide
  · rw [init_grid_piece g hm]; simp [start_pose]; norm_num
  · rw [init_grid_piece g hm]; rfl
  · rw [init_grid_piece g hm]; simp [start_pose]; norm_num

theorem init_grid_builds_level_witness :
    startGame.mapInd < max_maps ∧
    (init_grid startGame).grid.map tile_view =
      (level_cells startGame.mapInd).map (cell_view startGame.mapInd) ∧
    ((init_grid startGame).grid.map fun t => (t.i, t.j)).Nodup ∧
    (init_grid startGame).game_progress = 0 ∧
    (init_grid startGame).piece.state = 1 ∧
    ∃ i j : Nat, i < max_map_size ∧ j < max_map_size ∧ mapsAt startGame.mapInd i j = -1 ∧
      (init_grid startGame).piece.x = (i : ℚ) - 5 ∧ (init_grid startGame).piece.y = 0 ∧
      (init_grid startGame).piece.z = -((j : ℚ) - 5) :=
  ⟨by decide, init_grid_builds_level startGame (by decide)⟩

/-! ## The footprint invariant -/

theorem footprint_invariant_new : footprint_invariant cuboid.new := by
  simp [footprint_invariant, half_apart, cuboid.new, side]; norm_num

theorem footprint_invariant_start_pose (p : cuboid) : footprint_invariant (start_pose p) := by
  simp [footprint_invariant, half_apart, start_pose]; norm_num

theorem footprint_invariant_move (g : Game) (dir : Int) (h : footprint_invariant g.piece) :
    footprint_invariant (move g dir).piece := by
  by_cases hp : g.game_progress = 0
  · have hs : g.piece.state = 0 ∨ g.piece.state = 1 ∨ g.piece.state = 2 := by
      rcases h with h | h | h
      · exact Or.inl h.1
      · exact Or.inr (Or.inl h.1)
      · exact Or.inr (Or.inr h.1)
    by_cases h0 : dir = 0
    · rcases hs with hs | hs | hs <;>
        simp [move, hp, hs, h0, cuboid.roll, cuboid.footprints, footprint_invariant,
          half_apart, side]
    by_cases h1 : dir = 1
    · rcases hs with hs | hs | hs <;>
        simp [move, hp, hs, h1, cuboid.roll, cuboid.footprints, footprint_invariant,
          half_apart, side]
    by_cases h2 : dir = 2
    · rcases hs with hs | hs | hs <;>
        simp [move, hp, hs, h2, cuboid.roll, cuboid.footprints, footprint_invariant,
          half_apart, side]
    by_cases h3 : dir = 3
    · rcases hs with hs | hs | hs <;>
        simp [move, hp, hs, h3, cuboid.roll, cuboid.footprints, footprint_invariant,
          half_apart, side]
    · rcases hs with hs | hs | hs <;>
        simp [move, hp, hs, h0, h1, h2, h3, cuboid.roll, cuboid.footprints,
          footprint_invariant, half_apart, side]
  · simpa [move, hp] using h

theorem footprint_invariant_moves (dirs : List Int) (g : Game)
    (h : footprint_invariant g.piece) : footprint_invariant (dirs.foldl move g).piece := by
  induction dirs generalizing g with
  | nil => exact h
  | cons d ds ih => exact ih (move g d) (footprint_invariant_move g d h)

/-- C2: after any sequence of `move` calls on a cuboid that comes from the
constructor or from `init_grid` on a shipped level, the two footprints are
the center plus and minus one half on the axis of the orientation and equal
the center on the other two axes. -/
theorem footprints_follow_orientation (g : Game) (dirs : List Int)
    (h : g.piece = cuboid.new ∨ ∃ g0 : Game, g0.mapInd < max_maps ∧ g = init_grid g0) :
    footprint_invariant (dirs.foldl move g).piece := by
  apply footprint_invariant_moves
  rcases h with h | ⟨g0, hm, hg⟩
  · rw [h]; exact footprint_invariant_new
  · rw [hg, init_grid_piece g0 hm]; exact footprint_invariant_start_pose _

theorem footprints_follow_orientation_witness :
    (startGame.piece = cuboid.new ∨
      ∃ g0 : Game, g0.mapInd < max_maps ∧ startGame = init_grid g0) ∧
    footprint_invariant ([2, 0, 0, 1, 3].foldl move startGame).piece :=
  ⟨Or.inl rfl, footprints_follow_orientation startGame [2, 0, 0, 1, 3] (Or.inl rfl)⟩

/-! ## The grid pass: step lemmas -/

theorem foldl_range_induct {σ : Type} (f : σ → Nat → σ) (P : Nat → σ → Prop) (s0 : σ)
    (N : Nat) (h0 : P 0 s0) (hs : ∀ n s, n < N → P n s → P (n + 1) (f s n)) :
    P N ((List.range N).foldl f s0) := by
  induction N with
  | zero => simpa using h0
  | succ N ih =>
    rw [List.range_succ, List.foldl_append]
    exact hs N _ (Nat.lt_succ_self N)
      (ih fun n s hn hp => hs n s (Nat.lt_succ_of_lt hn) hp)

theorem toggle_bridge_eq (g : Game) (i j : Int) :
    toggle_bridge g i j = { g with grid := g.grid.map (toggle_tile g.mapInd i j) } := by
  obtain ⟨gp, ta, lm, p, m, gr, fs⟩ := g
  simp only [toggle_bridge, toggle_tile, max_switches, List.range, List.range.loop,
    List.foldl_cons, List.foldl_nil, flip_show]
  by_cases h0 : switchesAt m 0 0 = i ∧ switchesAt m 0 1 = j
  · by_cases h1 : switchesAt m 1 0 = i ∧ switchesAt m 1 1 = j <;>
      simp [h0, h1, List.map_map, Function.comp_def, toggle_tile, max_switches, List.range,
        List.range.loop]
  · by_cases h1 : switchesAt m 1 0 = i ∧ switchesAt m 1 1 = j
    · simp [h0, h1, List.map_map, Function.comp_def, toggle_tile, max_switches, List.range,
        List.range.loop]
    · simp only [h0, h1, if_false]
      have hid : toggle_tile m i j = id := by
        funext t
        simp [toggle_tile, max_switches, List.range, List.range.loop, h0, h1]
      rw [hid, List.map_id]

theorem set_state_get (grid : List tiles) (i k : Nat) (v : Int) :
    (set_state grid i v)[k]? =
      if k = i then (grid[k]?).map (fun t => { t with state := v }) else grid[k]? := by
  unfold set_state
  cases h : grid[i]? with
  | none => by_cases hk : k = i <;> simp [hk, h]
  | some t =>
    by_cases hk : k = i
    · subst hk
      have hlt : k < grid.length := by
        rcases List.getElem?_eq_some.1 h with ⟨hlt, _⟩; exact hlt
      simp [h, hlt]
    · simp [hk, List.getElem?_set_ne (Ne.symm hk)]

theorem set_show_get (grid : List tiles) (i k : Nat) (v : Int) :
    (set_show grid i v)[k]? =
      if k = i then (grid[k]?).map (fun t => { t with show_ := v }) else grid[k]? := by
  unfold set_show
  cases h : grid[i]? with
  | none => by_cases hk : k = i <;> simp [hk, h]
  | some t =>
    by_cases hk : k = i
    · subst hk
      have hlt : k < grid.length := by
        rcases List.getElem?_eq_some.1 h with ⟨hlt, _⟩; exact hlt
      simp [h, hlt]
    · simp [hk, List.getElem?_set_ne (Ne.symm hk)]
theorem flip_tile_static (t : tiles) (p q : Int) :
    same_static (flip_tile t p q) t ∧ (flip_tile t p q).state = t.state := by
  unfold flip_tile same_static; split <;> simp

theorem foldl_static {β : Type} (f : tiles → β → tiles)
    (hf : ∀ u b, same_static (f u b) u ∧ (f u b).state = u.state) (l : List β) (u : tiles) :
    same_static (l.foldl f u) u ∧ (l.foldl f u).state = u.state := by
  induction l generalizing u with
  | nil => simp [same_static]
  | cons b l ih =>
    obtain ⟨⟨a1, a2, a3, a4, a5, a6⟩, a7⟩ := ih (f u b)
    obtain ⟨⟨b1, b2, b3, b4, b5, b6⟩, b7⟩ := hf u b
    rw [List.foldl_cons]
    exact ⟨⟨a1.trans b1, a2.trans b2, a3.trans b3, a4.trans b4, a5.trans b5, a6.trans b6⟩,
      a7.trans b7⟩

theorem toggle_tile_static (m : Nat) (i j : Int) (t : tiles) :
    same_static (toggle_tile m i j t) t ∧ (toggle_tile m i j t).state = t.state := by
  unfold toggle_tile
  apply foldl_static
  intro u a
  split
  · exact foldl_static _ (fun v b => flip_tile_static v _ _) _ u
  · simp [same_static]

/-- The loop body at index `i`, whose tile reads `t`, in closed form. -/
theorem draw_tile_spec (s : Pass) (i : Nat) (t : tiles) (h : s.g.grid[i]? = some t) :
    (draw_tile s i).g.piece = s.g.piece ∧ (draw_tile s i).g.mapInd = s.g.mapInd ∧
    (draw_tile s i).g.last_move = s.g.last_move ∧
    (draw_tile s i).g.take_action = s.g.take_action ∧
    (draw_tile s i).g.fall_speed = s.g.fall_speed ∧
    (draw_tile s i).g.game_progress =
      (if t.type = 5 ∧ occupied1 s.g t = true ∧ occupied2 s.g t = true then 1
       else s.g.game_progress) ∧
    (draw_tile s i).off_grid_1 =
      (if (t.type = 2 ∧ occupied1 s.g t = true ∧ occupied2 s.g t = true) ∨
          (t.type = 3 ∧ (occupied1 s.g t = true ∨ occupied2 s.g t = true) ∧ t.show_ = 0)
       then true
       else if occupied1 s.g t = true then false else s.off_grid_1) ∧
    (draw_tile s i).off_grid_2 =
      (if (t.type = 2 ∧ occupied1 s.g t = true ∧ occupied2 s.g t = true) ∨
          (t.type = 3 ∧ (occupied1 s.g t = true ∨ occupied2 s.g t = true) ∧ t.show_ = 0)
       then true
       else if occupied2 s.g t = true then false else s.off_grid_2) ∧
    ∀ k, (draw_tile s i).g.grid[k]? = (s.g.grid[k]?).map (tile_step s.g t i k) := by
  obtain ⟨g, f1, f2⟩ := s
  simp only at h
  have ht : t.type = 1 ∨ t.type = 2 ∨ t.type = 3 ∨ t.type = 4 ∨ t.type = 5 ∨
      (t.type ≠ 1 ∧ t.type ≠ 2 ∧ t.type ≠ 3 ∧ t.type ≠ 4 ∧ t.type ≠ 5) := by omega
  have hd : draw_tile ⟨g, f1, f2⟩ i =
      { g := { g with
          game_progress :=
            if t.type = 5 ∧ occupied1 g t = true ∧ occupied2 g t = true then 1
            else g.game_progress,
          grid :=
            if t.type = 2 ∧ occupied1 g t = true ∧ occupied2 g t = true then
              set_show (set_state g.grid i (boolToInt (occupied1 g t || occupied2 g t))) i 0
            else if t.type = 4 then
              set_state (if fires g t then g.grid.map (toggle_tile g.mapInd t.i t.j) else g.grid)
                i (boolToInt (occupied1 g t || occupied2 g t))
            else if t.type = 1 ∨ t.type = 2 ∨ t.type = 3 ∨ t.type = 5 then
              set_state g.grid i (boolToInt (occupied1 g t || occupied2 g t))
            else g.grid },
        off_grid_1 :=
          if (t.type = 2 ∧ occupied1 g t = true ∧ occupied2 g t = true) ∨
              (t.type = 3 ∧ (occupied1 g t = true ∨ occupied2 g t = true) ∧ t.show_ = 0)
          then true
          else if occupied1 g t = true then false else f1,
        off_grid_2 :=
          if (t.type = 2 ∧ occupied1 g t = true ∧ occupied2 g t = true) ∨
              (t.type = 3 ∧ (occupied1 g t = true ∨ occupied2 g t = true) ∧ t.show_ = 0)
          then true
          else if occupied2 g t = true then false else f2 } := by
    unfold draw_tile
    simp only [h, occupied1, occupied2, fires]
    rcases ht with ht | ht | ht | ht | ht | ht <;>
      by_cases ho1 : is_occupied g 1 t.x t.z = true <;>
      by_cases ho2 : is_occupied g 2 t.x t.z = true <;>
      by_cases hv : t.show_ = 0 <;> by_cases hs : t.state = 0 <;>
      simp [ht, ho1, ho2, hv, hs, toggle_bridge_eq, boolToInt]
  rw [hd]
  clear hd
  refine ⟨rfl, rfl, rfl, rfl, rfl, rfl, rfl, rfl, ?_⟩
  intro k
  by_cases hk : k = i
  · subst hk
    rcases ht with ht | ht | ht | ht | ht | ht <;>
      by_cases ho1 : occupied1 g t = true <;> by_cases ho2 : occupied2 g t = true <;>
      by_cases hs : t.state = 0 <;>
      simp [ht, ho1, ho2, hs, h, set_state_get, set_show_get, tile_step, own_update,
        fires]
  · rcases ht with ht | ht | ht | ht | ht | ht <;>
      by_cases ho1 : occupied1 g t = true <;> by_cases ho2 : occupied2 g t = true <;>
      by_cases hs : t.state = 0 <;> cases hg : g.grid[k]? <;>
      simp [ht, ho1, ho2, hs, hk, hg, set_state_get, set_show_get, tile_step,
        own_update, fires]
theorem occupied1_iff (g : Game) (t : tiles) : occupied1 g t = true ↔ footprint1_on g t := by
  simp [occupied1, is_occupied, footprint1_on]

theorem occupied2_iff (g : Game) (t : tiles) : occupied2 g t = true ↔ footprint2_on g t := by
  simp [occupied2, is_occupied, footprint2_on]

theorem own_update_static (g : Game) (t u : tiles) : same_static (own_update g t u) u := by
  unfold own_update same_static
  split
  · simp
  · split <;> simp

theorem tile_step_static (g : Game) (t : tiles) (i k : Nat) (u : tiles) :
    same_static (tile_step g t i k u) u ∧ (k ≠ i → (tile_step g t i k u).state = u.state) := by
  obtain ⟨⟨a1, a2, a3, a4, a5, a6⟩, a7⟩ := toggle_tile_static g.mapInd t.i t.j u
  unfold tile_step
  by_cases hk : k = i <;> by_cases hf : fires g t = true
  · obtain ⟨b1, b2, b3, b4, b5, b6⟩ :=
      own_update_static g t (toggle_tile g.mapInd t.i t.j u)
    simp only [hk, hf, if_true, ne_eq, not_true_eq_false, false_implies, and_true]
    exact ⟨b1.trans a1, b2.trans a2, b3.trans a3, b4.trans a4, b5.trans a5, b6.trans a6⟩
  · simp only [hk, hf, if_true, if_false, ne_eq, not_true_eq_false, false_implies, and_true]
    exact own_update_static g t u
  · simp only [hk, hf, if_true, if_false, ne_eq, not_false_eq_true, true_implies]
    exact ⟨⟨a1, a2, a3, a4, a5, a6⟩, a7⟩
  · simp [hk, hf, same_static]

theorem occupied_congr (g h : Game) (t u : tiles) (hp : h.piece = g.piece)
    (hx : t.x = u.x) (hz : t.z = u.z) :
    occupied1 h t = occupied1 g u ∧ occupied2 h t = occupied2 g u := by
  simp [occupied1, occupied2, is_occupied, hp, hx, hz]

theorem tile_step_congr (g h : Game) (t u : tiles) (hp : h.piece = g.piece)
    (hm : h.mapInd = g.mapInd) (hst : same_static t u) (hs : t.state = u.state) :
    tile_step h t = tile_step g u := by
  obtain ⟨a1, a2, a3, a4, a5, a6⟩ := hst
  obtain ⟨o1, o2⟩ := occupied_congr g h t u hp a4 a6
  funext i k v
  simp [tile_step, fires, own_update, o1, o2, a1, a2, a3, hs, hm]

/-- The loop body at index `n`, in terms of the game and the tile the pass
started from; of the current state only the `show` of tile `n` is read. -/
theorem draw_tile_step (g : Game) (n : Nat) (s : Pass) (t0 : tiles) (hF : Frame g n s)
    (h0 : g.grid[n]? = some t0) :
    ∃ t, s.g.grid[n]? = some t ∧ same_static t t0 ∧ t.state = t0.state ∧
    (draw_tile s n).g.game_progress =
      (if t0.type = 5 ∧ footprint1_on g t0 ∧ footprint2_on g t0 then 1
       else s.g.game_progress) ∧
    (draw_tile s n).off_grid_1 =
      (if (t0.type = 2 ∧ footprint1_on g t0 ∧ footprint2_on g t0) ∨
          (t0.type = 3 ∧ (footprint1_on g t0 ∨ footprint2_on g t0) ∧ t.show_ = 0)
       then true
       else if footprint1_on g t0 then false else s.off_grid_1) ∧
    (draw_tile s n).off_grid_2 =
      (if (t0.type = 2 ∧ footprint1_on g t0 ∧ footprint2_on g t0) ∨
          (t0.type = 3 ∧ (footprint1_on g t0 ∨ footprint2_on g t0) ∧ t.show_ = 0)
       then true
       else if footprint2_on g t0 then false else s.off_grid_2) ∧
    ∀ k, (draw_tile s n).g.grid[k]? = (s.g.grid[k]?).map (tile_step g t0 n k) := by
  obtain ⟨hp, hm, -, -, -, -, hall⟩ := hF
  obtain ⟨t, ht, hst, hs⟩ := hall n t0 h0
  have hs' := hs (Nat.le_refl n)
  obtain ⟨-, -, -, -, -, e1, e2, e3, e4⟩ := draw_tile_spec s n t ht
  obtain ⟨o1, o2⟩ := occupied_congr g s.g t t0 hp hst.2.2.2.1 hst.2.2.2.2.2
  refine ⟨t, ht, hst, hs', ?_, ?_, ?_, ?_⟩
  · rw [e1, o1, o2, hst.1]; simp only [occupied1_iff, occupied2_iff]
  · rw [e2, o1, o2, hst.1]; simp only [occupied1_iff, occupied2_iff]
  · rw [e3, o1, o2, hst.1]; simp only [occupied1_iff, occupied2_iff]
  · intro k; rw [e4, tile_step_congr g s.g t t0 hp hm hst hs']

theorem draw_tile_frame (g : Game) (n : Nat) (s : Pass) (hn : n < g.grid.length)
    (hF : Frame g n s) : Frame g (n + 1) (draw_tile s n) := by
  have h0 : g.grid[n]? = some (g.grid[n]) := List.getElem?_eq_getElem hn
  obtain ⟨t, ht, -, -, -, -, -, hgrid⟩ := draw_tile_step g n s _ hF h0
  obtain ⟨e1, e2, e3, e4, e5, -, -, -, -⟩ := draw_tile_spec s n t ht
  obtain ⟨hp, hm, hl, hta, hfs, hlen, hall⟩ := hF
  refine ⟨e1.trans hp, e2.trans hm, e3.trans hl, e4.trans hta, e5.trans hfs, ?_, ?_⟩
  · have hlen' : ∀ k : Nat, (draw_tile s n).g.grid[k]? = none ↔ s.g.grid[k]? = none := by
      intro k; rw [hgrid k]; simp
    have h1 : (draw_tile s n).g.grid.length = s.g.grid.length := by
      apply Nat.le_antisymm
      · exact List.getElem?_eq_none_iff.1
          ((hlen' s.g.grid.length).2 (List.getElem?_eq_none (Nat.le_refl _)))
      · exact List.getElem?_eq_none_iff.1
          ((hlen' (draw_tile s n).g.grid.length).1 (List.getElem?_eq_none (Nat.le_refl _)))
    rw [h1, hlen]
  · intro k u0 hu0
    obtain ⟨u, hu, hus, hust⟩ := hall k u0 hu0
    obtain ⟨⟨c1, c2, c3, c4, c5, c6⟩, c7⟩ := tile_step_static g (g.grid[n]) n k u
    obtain ⟨d1, d2, d3, d4, d5, d6⟩ := hus
    refine ⟨tile_step g (g.grid[n]) n k u, by rw [hgrid k, hu]; rfl,
      ⟨c1.trans d1, c2.trans d2, c3.trans d3, c4.trans d4, c5.trans d5, c6.trans d6⟩, ?_⟩
    intro hk
    rw [c7 (by omega), hust (by omega)]

theorem frame_init (g : Game) : Frame g 0 { g := g, off_grid_1 := true, off_grid_2 := true } := by
  refine ⟨rfl, rfl, rfl, rfl, rfl, rfl, ?_⟩
  intro k t0 h
  exact ⟨t0, h, by simp [same_static], fun _ => rfl⟩

/-- Induction over the grid loop: a property that holds before the loop and
is kept by every iteration (which may use the frame) holds after it. -/
theorem draw_loop_induct (g : Game) (Q : Nat → Pass → Prop)
    (h0 : Q 0 { g := g, off_grid_1 := true, off_grid_2 := true })
    (hs : ∀ n s t0, g.grid[n]? = some t0 → Frame g n s → Q n s → Q (n + 1) (draw_tile s n)) :
    Q g.grid.length (draw_loop g) ∧ Frame g g.grid.length (draw_loop g) := by
  unfold draw_loop
  have := foldl_range_induct draw_tile (fun n s => Q n s ∧ Frame g n s)
    { g := g, off_grid_1 := true, off_grid_2 := true } g.grid.length ⟨h0, frame_init g⟩
    (fun n s hn hq => ⟨hs n s _ (List.getElem?_eq_getElem hn) hq.2 hq.1,
      draw_tile_frame g n s hn hq.2⟩)
  exact this

/-! ## The grid pass: outcome -/

theorem draw_grid_game_progress (g : Game) :
    (draw_grid g).game_progress =
      if (draw_loop g).off_grid_1 = true ∨ (draw_loop g).off_grid_2 = true then -1
      else (draw_loop g).g.game_progress := by
  unfold draw_grid
  by_cases h1 : (draw_loop g).off_grid_1 = true <;>
    by_cases h2 : (draw_loop g).off_grid_2 = true <;> simp [h1, h2]

theorem draw_grid_not_lost (g : Game) (h : (draw_grid g).game_progress ≠ -1) :
    (draw_loop g).off_grid_1 = false ∧ (draw_loop g).off_grid_2 = false ∧
    draw_grid g = (draw_loop g).g := by
  have h' := h
  rw [draw_grid_game_progress] at h'
  by_cases h1 : (draw_loop g).off_grid_1 = true
  · simp [h1] at h'
  · by_cases h2 : (draw_loop g).off_grid_2 = true
    · simp [h2] at h'
    · refine ⟨by simpa using h1, by simpa using h2, ?_⟩
      unfold draw_grid
      simp [h1, h2]

theorem off_grid_1_of_uncovered (g : Game) (h : ∀ t ∈ g.grid, ¬ footprint1_on g t) :
    (draw_loop g).off_grid_1 = true := by
  refine (draw_loop_induct g (fun _ s => s.off_grid_1 = true) rfl ?_).1
  intro n s t0 h0 hF hQ
  obtain ⟨t, -, -, -, -, e1, -, -⟩ := draw_tile_step g n s t0 hF h0
  have ho : ¬ footprint1_on g t0 := h _ (List.mem_iff_getElem?.2 ⟨n, h0⟩)
  rw [e1]
  simp [ho, hQ]

theorem off_grid_2_of_uncovered (g : Game) (h : ∀ t ∈ g.grid, ¬ footprint2_on g t) :
    (draw_loop g).off_grid_2 = true := by
  refine (draw_loop_induct g (fun _ s => s.off_grid_2 = true) rfl ?_).1
  intro n s t0 h0 hF hQ
  obtain ⟨t, -, -, -, -, -, e2, -⟩ := draw_tile_step g n s t0 hF h0
  have ho : ¬ footprint2_on g t0 := h _ (List.mem_iff_getElem?.2 ⟨n, h0⟩)
  rw [e2]
  simp [ho, hQ]

theorem lost_of_uncovered (g : Game)
    (h : (∀ t ∈ g.grid, ¬ footprint1_on g t) ∨ (∀ t ∈ g.grid, ¬ footprint2_on g t)) :
    (draw_grid g).game_progress = -1 := by
  rw [draw_grid_game_progress]
  rcases h with h | h
  · simp [off_grid_1_of_uncovered g h]
  · simp [off_grid_2_of_uncovered g h]

/-- C4: for every grid, pose and prior outcome, when a footprint has the
`(x, z)` of no tile of the grid the evaluation pass ends with outcome Lost. -/
theorem lost_when_uncovered (g : Game)
    (h : (∀ t ∈ g.grid, ¬ footprint1_on g t) ∨ (∀ t ∈ g.grid, ¬ footprint2_on g t)) :
    (draw_grid g).game_progress = -1 := by
  rcases h with h | h
  · exact lost_of_uncovered g (Or.inl h)
  · exact lost_of_uncovered g (Or.inr h)

theorem lost_when_uncovered_witness :
    ((∀ t ∈ (demoGame 0 (3/2) 3).grid, ¬ footprint1_on (demoGame 0 (3/2) 3) t) ∨
      (∀ t ∈ (demoGame 0 (3/2) 3).grid, ¬ footprint2_on (demoGame 0 (3/2) 3) t)) ∧
    (draw_grid (demoGame 0 (3/2) 3)).game_progress = -1 :=
  ⟨by decide!, lost_when_uncovered (demoGame 0 (3/2) 3) (by decide!)⟩

theorem built_inj (t u : tiles) (ht : built t) (hu : built u) (hx : t.x = u.x) (hz : t.z = u.z) :
    t.i = u.i ∧ t.j = u.j := by
  unfold built tiles.new at ht hu
  simp only [side, map_center_i, map_center_j] at ht hu
  rw [ht.1, hu.1] at hx
  rw [ht.2, hu.2] at hz
  constructor
  · have : ((t.i - 5 : Int) : ℚ) = ((u.i - 5 : Int) : ℚ) := by linarith
    have := Int.cast_injective this
    omega
  · have : ((t.j - 5 : Int) : ℚ) = ((u.j - 5 : Int) : ℚ) := by linarith
    have := Int.cast_injective this
    omega

theorem distinct_coords_index (grid : List tiles) (hd : distinct_coords grid) (k l : Nat)
    (t u : tiles) (hk : grid[k]? = some t) (hl : grid[l]? = some u)
    (hi : t.i = u.i) (hj : t.j = u.j) : k = l := by
  unfold distinct_coords at hd
  obtain ⟨hk1, hk2⟩ := List.getElem?_eq_some.1 hk
  obtain ⟨hl1, hl2⟩ := List.getElem?_eq_some.1 hl
  have hk' : k < (grid.map fun t => (t.i, t.j)).length := by simpa using hk1
  have hl' : l < (grid.map fun t => (t.i, t.j)).length := by simpa using hl1
  have key : (grid.map fun t => (t.i, t.j))[k] = (grid.map fun t => (t.i, t.j))[l] ↔ k = l :=
    hd.getElem_inj_iff
  exact key.1 (by simp [hk2, hl2, hi, hj])

/-- On a grid of built tiles with distinct coordinates, two entries with the
same world `(x, z)` are the same entry. -/
theorem same_place_index (g : Game) (hb : ∀ t ∈ g.grid, built t)
    (hd : distinct_coords g.grid) (k l : Nat) (t u : tiles)
    (hk : g.grid[k]? = some t) (hl : g.grid[l]? = some u)
    (hx : t.x = u.x) (hz : t.z = u.z) : k = l := by
  have ht := hb t (List.mem_iff_getElem?.2 ⟨k, hk⟩)
  have hu := hb u (List.mem_iff_getElem?.2 ⟨l, hl⟩)
  obtain ⟨hi, hj⟩ := built_inj t u ht hu hx hz
  exact distinct_coords_index g.grid hd k l t u hk hl hi hj
theorem draw_loop_goal (g : Game) :
    ((∃ t ∈ g.grid, t.type = 5 ∧ footprint1_on g t ∧ footprint2_on g t) →
      (draw_loop g).g.game_progress = 1) ∧
    ((¬ ∃ t ∈ g.grid, t.type = 5 ∧ footprint1_on g t ∧ footprint2_on g t) →
      (draw_loop g).g.game_progress = g.game_progress) := by
  have key := (draw_loop_induct g
    (fun n s =>
      ((∃ k t, k < n ∧ g.grid[k]? = some t ∧ t.type = 5 ∧ footprint1_on g t ∧
          footprint2_on g t) → s.g.game_progress = 1) ∧
      ((¬ ∃ k t, k < n ∧ g.grid[k]? = some t ∧ t.type = 5 ∧ footprint1_on g t ∧
          footprint2_on g t) → s.g.game_progress = g.game_progress))
    ⟨fun ⟨k, t, hk, _⟩ => absurd hk (Nat.not_lt_zero k), fun _ => rfl⟩ ?_).1
  · constructor
    · rintro ⟨t, ht, h5, h1, h2⟩
      obtain ⟨k, hk⟩ := List.mem_iff_getElem?.1 ht
      have hlt : k < g.grid.length := (List.getElem?_eq_some.1 hk).1
      exact key.1 ⟨k, t, hlt, hk, h5, h1, h2⟩
    · intro hno
      apply key.2
      rintro ⟨k, t, -, hk, h5, h1, h2⟩
      exact hno ⟨t, List.mem_iff_getElem?.2 ⟨k, hk⟩, h5, h1, h2⟩
  · intro n s t0 h0 hF ⟨hQ1, hQ2⟩
    obtain ⟨t, -, -, -, e, -, -, -⟩ := draw_tile_step g n s t0 hF h0
    by_cases hit : t0.type = 5 ∧ footprint1_on g t0 ∧ footprint2_on g t0
    · refine ⟨fun _ => by rw [e, if_pos hit], fun hno => ?_⟩
      exact absurd ⟨n, _, Nat.lt_succ_self n, h0, hit⟩ hno
    · rw [e, if_neg hit]
      constructor
      · rintro ⟨k, u, hk, hu, hu'⟩
        apply hQ1
        rcases Nat.lt_succ_iff_lt_or_eq.1 hk with hk' | hk'
        · exact ⟨k, u, hk', hu, hu'⟩
        · subst hk'
          rw [h0] at hu
          cases hu
          exact absurd hu' hit
      · intro hno
        apply hQ2
        rintro ⟨k, u, hk, hu⟩
        exact hno ⟨k, u, Nat.lt_succ_of_lt hk, hu⟩

/-- Both footprints on one tile that is neither fragile nor a bridge, on a
grid of built tiles with distinct coordinates: no off-grid flag is left
set. -/
theorem draw_loop_covered (g : Game) (hb : ∀ t ∈ g.grid, built t)
    (hd : distinct_coords g.grid) (t : tiles) (ht : t ∈ g.grid)
    (h1 : footprint1_on g t) (h2 : footprint2_on g t) (hn2 : t.type ≠ 2) (hn3 : t.type ≠ 3) :
    (draw_loop g).off_grid_1 = false ∧ (draw_loop g).off_grid_2 = false := by
  obtain ⟨k, hk⟩ := List.mem_iff_getElem?.1 ht
  have hlt : k < g.grid.length := (List.getElem?_eq_some.1 hk).1
  have key := (draw_loop_induct g
    (fun n s => k < n → s.off_grid_1 = false ∧ s.off_grid_2 = false)
    (fun h => absurd h (Nat.not_lt_zero k)) ?_).1
  · exact key hlt
  · intro n s t0 h0 hF hQ hkn
    obtain ⟨u, -, -, -, -, e1, e2, -⟩ := draw_tile_step g n s t0 hF h0
    rcases Nat.lt_succ_iff_lt_or_eq.1 hkn with hlt' | heq
    · obtain ⟨q1, q2⟩ := hQ hlt'
      have hne : n ≠ k := by omega
      have o1 : ¬ footprint1_on g t0 := by
        intro ho
        exact hne (same_place_index g hb hd n k t0 t h0 hk (ho.1.symm.trans h1.1)
          (ho.2.symm.trans h1.2))
      have o2 : ¬ footprint2_on g t0 := by
        intro ho
        exact hne (same_place_index g hb hd n k t0 t h0 hk (ho.1.symm.trans h2.1)
          (ho.2.symm.trans h2.2))
      rw [e1, e2]
      simp [o1, o2, q1, q2]
    · subst heq
      rw [h0] at hk
      cases hk
      rw [e1, e2]
      simp [h1, h2, hn2, hn3]

/-- C3: on a grid of built tiles with pairwise distinct coordinates, a pass
started InProgress ends Won exactly when some Goal tile has the `(x, z)` of
both footprints. -/
theorem won_iff_goal_covered (g : Game) (hp : g.game_progress = 0)
    (hb : ∀ t ∈ g.grid, built t) (hd : distinct_coords g.grid) :
    (draw_grid g).game_progress = 1 ↔
      ∃ t ∈ g.grid, t.type = 5 ∧ footprint1_on g t ∧ footprint2_on g t := by
  constructor
  · intro hw
    by_contra hno
    obtain ⟨-, -, e⟩ := draw_grid_not_lost g (by rw [hw]; decide)
    rw [e, (draw_loop_goal g).2 hno, hp] at hw
    exact absurd hw (by decide)
  · rintro ⟨t, ht, h5, h1, h2⟩
    obtain ⟨o1, o2⟩ := draw_loop_covered g hb hd t ht h1 h2 (by omega) (by omega)
    rw [draw_grid_game_progress, o1, o2]
    simpa using (draw_loop_goal g).1 ⟨t, ht, h5, h1, h2⟩

theorem won_iff_goal_covered_witness :
    (demoGame 1 (-2) 3).game_progress = 0 ∧ (∀ t ∈ (demoGame 1 (-2) 3).grid, built t) ∧
    distinct_coords (demoGame 1 (-2) 3).grid ∧
    ((draw_grid (demoGame 1 (-2) 3)).game_progress = 1 ↔
      ∃ t ∈ (demoGame 1 (-2) 3).grid,
        t.type = 5 ∧ footprint1_on (demoGame 1 (-2) 3) t ∧ footprint2_on (demoGame 1 (-2) 3) t) :=
  ⟨by decide!, by decide!, by decide!,
    won_iff_goal_covered (demoGame 1 (-2) 3) (by decide!) (by decide!) (by decide!)⟩

theorem fires_iff (g : Game) (t : tiles) :
    fires g t = true ↔ t.type = 4 ∧ (footprint1_on g t ∨ footprint2_on g t) ∧ t.state = 0 := by
  simp [fires, occupied1_iff, occupied2_iff, and_assoc]

/-- An iteration that does not call `toggle_bridge` leaves the entries after
its own untouched. -/
theorem untouched_step (g : Game) (n : Nat) (s : Pass) (t0 : tiles) (hF : Frame g n s)
    (h0 : g.grid[n]? = some t0) (hnf : ¬ fires g t0 = true)
    (hinv : ∀ k : Nat, n ≤ k → s.g.grid[k]? = g.grid[k]?) :
    ∀ k : Nat, n + 1 ≤ k → (draw_tile s n).g.grid[k]? = g.grid[k]? := by
  obtain ⟨t, -, -, -, -, -, -, hgrid⟩ := draw_tile_step g n s t0 hF h0
  intro k hk
  have hne : k ≠ n := by omega
  rw [hgrid k, hinv k (by omega)]
  cases g.grid[k]? <;> simp [tile_step, hne, hnf]

/-- A tile that sets the off-grid flags keeps the flag of a footprint on it
set until the end of the loop, on a grid of built tiles with distinct
coordinates: a fragile tile under both footprints, or (when no iteration
calls `toggle_bridge`) an invisible bridge under a footprint. -/
theorem draw_loop_bad_tile (g : Game) (hb : ∀ t ∈ g.grid, built t)
    (hd : distinct_coords g.grid) (t : tiles) (ht : t ∈ g.grid)
    (hbad : (t.type = 2 ∧ footprint1_on g t ∧ footprint2_on g t) ∨
      (t.type = 3 ∧ t.show_ = 0 ∧ (footprint1_on g t ∨ footprint2_on g t) ∧
        ∀ u ∈ g.grid, ¬ fires g u = true)) :
    (footprint1_on g t → (draw_loop g).off_grid_1 = true) ∧
    (footprint2_on g t → (draw_loop g).off_grid_2 = true) := by
  obtain ⟨k, hk⟩ := List.mem_iff_getElem?.1 ht
  have hlt : k < g.grid.length := (List.getElem?_eq_some.1 hk).1
  have key := (draw_loop_induct g
    (fun n s =>
      ((∀ u ∈ g.grid, ¬ fires g u = true) → ∀ l : Nat, n ≤ l → s.g.grid[l]? = g.grid[l]?) ∧
      (k < n → (footprint1_on g t → s.off_grid_1 = true) ∧
        (footprint2_on g t → s.off_grid_2 = true)))
    ⟨fun _ _ _ => rfl, fun h => absurd h (Nat.not_lt_zero k)⟩ ?_).1
  · exact key.2 hlt
  · intro n s t0 h0 hF ⟨hU, hQ⟩
    obtain ⟨u, hu, -, -, -, e1, e2, -⟩ := draw_tile_step g n s t0 hF h0
    refine ⟨fun hnf => untouched_step g n s t0 hF h0
      (hnf t0 (List.mem_iff_getElem?.2 ⟨n, h0⟩)) (hU hnf), ?_⟩
    intro hkn
    rcases Nat.lt_succ_iff_lt_or_eq.1 hkn with hlt' | heq
    · obtain ⟨q1, q2⟩ := hQ hlt'
      have hne : n ≠ k := by omega
      constructor
      · intro h1
        have o1 : ¬ footprint1_on g t0 := fun ho =>
          hne (same_place_index g hb hd n k t0 t h0 hk (ho.1.symm.trans h1.1)
            (ho.2.symm.trans h1.2))
        rw [e1]; simp [o1, q1 h1]
      · intro h2
        have o2 : ¬ footprint2_on g t0 := fun ho =>
          hne (same_place_index g hb hd n k t0 t h0 hk (ho.1.symm.trans h2.1)
            (ho.2.symm.trans h2.2))
        rw [e2]; simp [o2, q2 h2]
    · subst heq
      have htt : t0 = t := Option.some.inj (h0.symm.trans hk)
      rw [htt] at e1 e2
      have hcond : (t.type = 2 ∧ footprint1_on g t ∧ footprint2_on g t) ∨
          (t.type = 3 ∧ (footprint1_on g t ∨ footprint2_on g t) ∧ u.show_ = 0) := by
        rcases hbad with ⟨b1, b2, b3⟩ | ⟨b1, b2, b3, b4⟩
        · exact Or.inl ⟨b1, b2, b3⟩
        · have hu' := hU b4 k (Nat.le_refl k)
          rw [hu, hk] at hu'
          rw [Option.some.inj hu']
          exact Or.inr ⟨b1, b3, b2⟩
      rw [e1, e2, if_pos hcond, if_pos hcond]
      exact ⟨fun _ => rfl, fun _ => rfl⟩

/-- When no iteration calls `toggle_bridge`, a set off-grid flag has a
cause: its footprint is on no tile, or a fragile tile is under both
footprints, or an invisible bridge is under a footprint. -/
theorem draw_loop_off_cause (g : Game) (hnf : ∀ u ∈ g.grid, ¬ fires g u = true) :
    ((draw_loop g).off_grid_1 = true →
      (∀ t ∈ g.grid, ¬ footprint1_on g t) ∨
      (∃ t ∈ g.grid, t.type = 2 ∧ footprint1_on g t ∧ footprint2_on g t) ∨
      (∃ t ∈ g.grid, t.type = 3 ∧ t.show_ = 0 ∧ (footprint1_on g t ∨ footprint2_on g t))) ∧
    ((draw_loop g).off_grid_2 = true →
      (∀ t ∈ g.grid, ¬ footprint2_on g t) ∨
      (∃ t ∈ g.grid, t.type = 2 ∧ footprint1_on g t ∧ footprint2_on g t) ∨
      (∃ t ∈ g.grid, t.type = 3 ∧ t.show_ = 0 ∧ (footprint1_on g t ∨ footprint2_on g t))) := by
  have key := (draw_loop_induct g
    (fun n s =>
      (∀ l : Nat, n ≤ l → s.g.grid[l]? = g.grid[l]?) ∧
      (s.off_grid_1 = true →
        (∀ l t, l < n → g.grid[l]? = some t → ¬ footprint1_on g t) ∨
        (∃ t ∈ g.grid, t.type = 2 ∧ footprint1_on g t ∧ footprint2_on g t) ∨
        (∃ t ∈ g.grid, t.type = 3 ∧ t.show_ = 0 ∧
          (footprint1_on g t ∨ footprint2_on g t))) ∧
      (s.off_grid_2 = true →
        (∀ l t, l < n → g.grid[l]? = some t → ¬ footprint2_on g t) ∨
        (∃ t ∈ g.grid, t.type = 2 ∧ footprint1_on g t ∧ footprint2_on g t) ∨
        (∃ t ∈ g.grid, t.type = 3 ∧ t.show_ = 0 ∧
          (footprint1_on g t ∨ footprint2_on g t))))
    ⟨fun _ _ => rfl, fun _ => Or.inl fun l _ hl => absurd hl (Nat.not_lt_zero l),
      fun _ => Or.inl fun l _ hl => absurd hl (Nat.not_lt_zero l)⟩ ?_).1
  · obtain ⟨-, k1, k2⟩ := key
    have hall : ∀ (P : tiles → Prop),
        (∀ l t, l < g.grid.length → g.grid[l]? = some t → ¬ P t) → ∀ t ∈ g.grid, ¬ P t := by
      intro P h t ht
      obtain ⟨l, hl⟩ := List.mem_iff_getElem?.1 ht
      exact h l t (List.getElem?_eq_some.1 hl).1 hl
    constructor
    · intro h
      rcases k1 h with c | c
      · exact Or.inl (hall _ c)
      · exact Or.inr c
    · intro h
      rcases k2 h with c | c
      · exact Or.inl (hall _ c)
      · exact Or.inr c
  · intro n s t0 h0 hF ⟨hU, hQ1, hQ2⟩
    obtain ⟨u, hu, -, -, -, e1, e2, -⟩ := draw_tile_step g n s t0 hF h0
    have hmem : t0 ∈ g.grid := List.mem_iff_getElem?.2 ⟨n, h0⟩
    have hut : u = t0 := by
      have := hU n (Nat.le_refl n)
      rw [hu, h0] at this
      exact Option.some.inj this
    subst hut
    refine ⟨untouched_step g n s u hF h0 (hnf u hmem) hU, ?_, ?_⟩
    · intro hoff
      rw [e1] at hoff
      by_cases hc : (u.type = 2 ∧ footprint1_on g u ∧ footprint2_on g u) ∨
          (u.type = 3 ∧ (footprint1_on g u ∨ footprint2_on g u) ∧ u.show_ = 0)
      · rcases hc with c | ⟨c1, c2, c3⟩
        · exact Or.inr (Or.inl ⟨u, hmem, c⟩)
        · exact Or.inr (Or.inr ⟨u, hmem, c1, c3, c2⟩)
      · rw [if_neg hc] at hoff
        by_cases ho : footprint1_on g u
        · simp [ho] at hoff
        · simp only [ho, if_false] at hoff
          rcases hQ1 hoff with c | c
          · left
            intro l t hl hlt
            rcases Nat.lt_succ_iff_lt_or_eq.1 hl with hl' | hl'
            · exact c l t hl' hlt
            · subst hl'
              rw [h0] at hlt
              cases hlt
              exact ho
          · exact Or.inr c
    · intro hoff
      rw [e2] at hoff
      by_cases hc : (u.type = 2 ∧ footprint1_on g u ∧ footprint2_on g u) ∨
          (u.type = 3 ∧ (footprint1_on g u ∨ footprint2_on g u) ∧ u.show_ = 0)
      · rcases hc with c | ⟨c1, c2, c3⟩
        · exact Or.inr (Or.inl ⟨u, hmem, c⟩)
        · exact Or.inr (Or.inr ⟨u, hmem, c1, c3, c2⟩)
      · rw [if_neg hc] at hoff
        by_cases ho : footprint2_on g u
        · simp [ho] at hoff
        · simp only [ho, if_false] at hoff
          rcases hQ2 hoff with c | c
          · left
            intro l t hl hlt
            rcases Nat.lt_succ_iff_lt_or_eq.1 hl with hl' | hl'
            · exact c l t hl' hlt
            · subst hl'
              rw [h0] at hlt
              cases hlt
              exact ho
          · exact Or.inr c
theorem draw_loop_frame (g : Game) : Frame g g.grid.length (draw_loop g) :=
  (draw_loop_induct g (fun _ _ => True) trivial (fun _ _ _ _ _ _ => trivial)).2

/-- C8: on a grid of built tiles with pairwise distinct coordinates, from
outcome InProgress, in a pass in which no switch is newly entered: the pass
ends Lost exactly when a footprint is on no tile, or both footprints are on
one Fragile tile, or a footprint is on an invisible Bridge tile; and a pass
that ends neither Lost nor Won ends InProgress with the piece unchanged. -/
theorem pass_outcome_without_toggle (g : Game) (hp : g.game_progress = 0)
    (hb : ∀ t ∈ g.grid, built t) (hd : distinct_coords g.grid)
    (hnf : ∀ t ∈ g.grid,
      ¬ (t.type = 4 ∧ (footprint1_on g t ∨ footprint2_on g t) ∧ t.state = 0)) :
    ((draw_grid g).game_progress = -1 ↔
      ((∀ t ∈ g.grid, ¬ footprint1_on g t) ∨ (∀ t ∈ g.grid, ¬ footprint2_on g t) ∨
        (∃ t ∈ g.grid, t.type = 2 ∧ footprint1_on g t ∧ footprint2_on g t) ∨
        (∃ t ∈ g.grid, t.type = 3 ∧ t.show_ = 0 ∧
          (footprint1_on g t ∨ footprint2_on g t)))) ∧
    ((draw_grid g).game_progress ≠ -1 → (draw_grid g).game_progress ≠ 1 →
      (draw_grid g).game_progress = 0 ∧ (draw_grid g).piece = g.piece) := by
  have hnf' : ∀ u ∈ g.grid, ¬ fires g u = true := fun u hu h =>
    hnf u hu ((fires_iff g u).1 h)
  constructor
  · constructor
    · intro hl
      rw [draw_grid_game_progress] at hl
      obtain ⟨c1, c2⟩ := draw_loop_off_cause g hnf'
      by_cases h1 : (draw_loop g).off_grid_1 = true
      · rcases c1 h1 with c | c | c
        · exact Or.inl c
        · exact Or.inr (Or.inr (Or.inl c))
        · exact Or.inr (Or.inr (Or.inr c))
      · by_cases h2 : (draw_loop g).off_grid_2 = true
        · rcases c2 h2 with c | c | c
          · exact Or.inr (Or.inl c)
          · exact Or.inr (Or.inr (Or.inl c))
          · exact Or.inr (Or.inr (Or.inr c))
        · rw [if_neg (by simp [h1, h2])] at hl
          by_cases hgoal : ∃ t ∈ g.grid, t.type = 5 ∧ footprint1_on g t ∧ footprint2_on g t
          · rw [(draw_loop_goal g).1 hgoal] at hl
            exact absurd hl (by decide)
          · rw [(draw_loop_goal g).2 hgoal, hp] at hl
            exact absurd hl (by decide)
    · intro h
      rcases h with h | h | ⟨t, ht, h2, f1, f2⟩ | ⟨t, ht, h3, hv, f⟩
      · exact lost_of_uncovered g (Or.inl h)
      · exact lost_of_uncovered g (Or.inr h)
      · have := (draw_loop_bad_tile g hb hd t ht (Or.inl ⟨h2, f1, f2⟩)).1 f1
        rw [draw_grid_game_progress, this]
        simp
      · obtain ⟨k1, k2⟩ := draw_loop_bad_tile g hb hd t ht (Or.inr ⟨h3, hv, f, hnf'⟩)
        rw [draw_grid_game_progress]
        rcases f with f | f
        · simp [k1 f]
        · simp [k2 f]
  · intro hnl hnw
    obtain ⟨-, -, e⟩ := draw_grid_not_lost g hnl
    rw [e] at hnw ⊢
    refine ⟨?_, (draw_loop_frame g).1⟩
    by_cases hgoal : ∃ t ∈ g.grid, t.type = 5 ∧ footprint1_on g t ∧ footprint2_on g t
    · exact absurd ((draw_loop_goal g).1 hgoal) hnw
    · rw [(draw_loop_goal g).2 hgoal, hp]

theorem pass_outcome_without_toggle_witness :
    (demoGame 1 0 3).game_progress = 0 ∧ (∀ t ∈ (demoGame 1 0 3).grid, built t) ∧
    distinct_coords (demoGame 1 0 3).grid ∧
    (∀ t ∈ (demoGame 1 0 3).grid,
      ¬ (t.type = 4 ∧ (footprint1_on (demoGame 1 0 3) t ∨ footprint2_on (demoGame 1 0 3) t) ∧
        t.state = 0)) ∧
    ((draw_grid (demoGame 1 0 3)).game_progress = -1 ↔
      ((∀ t ∈ (demoGame 1 0 3).grid, ¬ footprint1_on (demoGame 1 0 3) t) ∨
        (∀ t ∈ (demoGame 1 0 3).grid, ¬ footprint2_on (demoGame 1 0 3) t) ∨
        (∃ t ∈ (demoGame 1 0 3).grid,
          t.type = 2 ∧ footprint1_on (demoGame 1 0 3) t ∧ footprint2_on (demoGame 1 0 3) t) ∨
        (∃ t ∈ (demoGame 1 0 3).grid, t.type = 3 ∧ t.show_ = 0 ∧
          (footprint1_on (demoGame 1 0 3) t ∨ footprint2_on (demoGame 1 0 3) t)))) ∧
    ((draw_grid (demoGame 1 0 3)).game_progress ≠ -1 →
      (draw_grid (demoGame 1 0 3)).game_progress ≠ 1 →
      (draw_grid (demoGame 1 0 3)).game_progress = 0 ∧
        (draw_grid (demoGame 1 0 3)).piece = (demoGame 1 0 3).piece) :=
  ⟨by decide!, by decide!, by decide!, by decide!,
    pass_outcome_without_toggle (demoGame 1 0 3) (by decide!) (by decide!) (by decide!)
      (by decide!)⟩

/-! ## Visibility -/

theorem links_of_shipped (m : Nat) (hm : m < max_maps) (i j : Int) :
    links_of m i j = if i = 4 ∧ j = 2 then [(6, 4), (6, 5)] else [] := by
  have hm' : m = 0 ∨ m = 1 := by simp [max_maps] at hm; omega
  clear hm
  by_cases h1 : i = 4 ∧ j = 2
  · obtain ⟨rfl, rfl⟩ := h1
    rcases hm' with rfl | rfl <;> decide
  · by_cases h2 : i = -1 ∧ j = -1
    · obtain ⟨rfl, rfl⟩ := h2
      rcases hm' with rfl | rfl <;> decide
    · have e1 : ¬ ((4 : Int) = i ∧ (2 : Int) = j) := fun c => h1 ⟨c.1.symm, c.2.symm⟩
      have e2 : ¬ ((-1 : Int) = i ∧ (-1 : Int) = j) := fun c => h2 ⟨c.1.symm, c.2.symm⟩
      rcases hm' with rfl | rfl <;>
        simp [links_of, max_switches, List.range, List.range.loop, switchesAt, switches, h1,
          e1, e2]

theorem switch_links_shipped (m : Nat) (hm : m < max_maps) :
    switch_links m = [(6, 4), (6, 5)] := by
  have hm' : m = 0 ∨ m = 1 := by simp [max_maps] at hm; omega
  rcases hm' with rfl | rfl <;> decide

theorem cNot_cNot_eq_zero (v : Int) : cNot (cNot v) = 0 ↔ v = 0 := by
  unfold cNot; split <;> simp [*]

theorem flip_tile_i (t : tiles) (p q : Int) : (flip_tile t p q).i = t.i := by
  unfold flip_tile; split <;> rfl

theorem flip_tile_j (t : tiles) (p q : Int) : (flip_tile t p q).j = t.j := by
  unfold flip_tile; split <;> rfl

theorem flip_tile_show (t : tiles) (p q : Int) :
    (flip_tile t p q).show_ = if t.i = p ∧ t.j = q then cNot t.show_ else t.show_ := by
  unfold flip_tile; split <;> rfl

/-- The flips of one `toggle_bridge(i, j)` on a shipped level. -/
theorem toggle_tile_shipped (m : Nat) (hm : m < max_maps) (i j : Int) (t : tiles) :
    toggle_tile m i j t =
      if i = 4 ∧ j = 2 then
        flip_tile (flip_tile (flip_tile (flip_tile t 6 4) 6 5) (-1) (-1)) (-1) (-1)
      else if i = -1 ∧ j = -1 then
        flip_tile (flip_tile (flip_tile (flip_tile t (-1) (-1)) (-1) (-1)) (-1) (-1)) (-1) (-1)
      else t := by
  have hm' : m = 0 ∨ m = 1 := by simp [max_maps] at hm; omega
  clear hm
  by_cases h1 : i = 4 ∧ j = 2
  · obtain ⟨rfl, rfl⟩ := h1
    rcases hm' with rfl | rfl <;>
      simp [toggle_tile, max_switches, List.range, List.range.loop, switchesAt, switches]
  · by_cases h2 : i = -1 ∧ j = -1
    · obtain ⟨rfl, rfl⟩ := h2
      rcases hm' with rfl | rfl <;>
        simp [toggle_tile, max_switches, List.range, List.range.loop, switchesAt, switches]
    · have e1 : ¬ ((4 : Int) = i ∧ (2 : Int) = j) := fun c => h1 ⟨c.1.symm, c.2.symm⟩
      have e2 : ¬ ((-1 : Int) = i ∧ (-1 : Int) = j) := fun c => h2 ⟨c.1.symm, c.2.symm⟩
      rcases hm' with rfl | rfl <;>
        simp [toggle_tile, max_switches, List.range, List.range.loop, switchesAt, switches,
          h1, h2, e1, e2]

/-- One `toggle_bridge(i, j)` on a shipped level flips the `show` of a tile
whose coordinates the table lists for the switch `(i, j)`. -/
theorem toggle_tile_linked (m : Nat) (hm : m < max_maps) (i j : Int) (t : tiles)
    (h : (t.i, t.j) ∈ links_of m i j) : (toggle_tile m i j t).show_ = cNot t.show_ := by
  rw [links_of_shipped m hm] at h
  rw [toggle_tile_shipped m hm]
  by_cases hij : i = 4 ∧ j = 2
  · simp only [hij, and_self, if_true, List.mem_cons, Prod.mk.injEq, List.mem_singleton,
      List.not_mem_nil, or_false] at h ⊢
    rcases h with ⟨h1, h2⟩ | ⟨h1, h2⟩ <;>
      simp [flip_tile_show, flip_tile_i, flip_tile_j, h1, h2]
  · simp [hij] at h

/-- One `toggle_bridge(i, j)` on a shipped level leaves a tile that the table
does not list for `(i, j)` visible if it was visible and invisible if it was
invisible. -/
theorem toggle_tile_unlinked (m : Nat) (hm : m < max_maps) (i j : Int) (t : tiles)
    (h : (t.i, t.j) ∉ links_of m i j) : (toggle_tile m i j t).show_ = 0 ↔ t.show_ = 0 := by
  rw [links_of_shipped m hm] at h
  rw [toggle_tile_shipped m hm]
  by_cases hf : t.i = -1 ∧ t.j = -1
  · by_cases h1 : i = 4 ∧ j = 2
    · simp [h1, flip_tile_show, flip_tile_i, flip_tile_j, hf, cNot_cNot_eq_zero]
    · by_cases h2 : i = -1 ∧ j = -1
      · simp [h2, flip_tile_show, flip_tile_i, flip_tile_j, hf, cNot_cNot_eq_zero]
      · simp [h1, h2]
  · by_cases h1 : i = 4 ∧ j = 2
    · simp only [h1, and_self, if_true, List.mem_cons, Prod.mk.injEq, List.mem_singleton,
        List.not_mem_nil, or_false, not_or] at h ⊢
      simp [flip_tile_show, flip_tile_i, flip_tile_j, hf, h.1, h.2]
    · by_cases h2 : i = -1 ∧ j = -1
      · simp [h2, flip_tile_show, flip_tile_i, flip_tile_j, hf]
      · simp [h1, h2]
theorem move_grid (g : Game) (dir : Int) :
    (move g dir).grid = g.grid ∧ (move g dir).mapInd = g.mapInd := by
  by_cases hp : g.game_progress = 0 <;> simp [move, hp]

theorem moves_grid (dirs : List Int) (g : Game) :
    (dirs.foldl move g).grid = g.grid ∧ (dirs.foldl move g).mapInd = g.mapInd := by
  induction dirs generalizing g with
  | nil => exact ⟨rfl, rfl⟩
  | cons d ds ih =>
    rw [List.foldl_cons]
    exact ⟨(ih _).1.trans (move_grid g d).1, (ih _).2.trans (move_grid g d).2⟩

theorem draw_grid_grid (g : Game) :
    (draw_grid g).grid = (draw_loop g).g.grid ∧ (draw_grid g).mapInd = g.mapInd := by
  have hm := (draw_loop_frame g).2.1
  unfold draw_grid
  by_cases ho : ((draw_loop g).off_grid_1 || (draw_loop g).off_grid_2) = true
  · simp only [ho, if_true]
    exact ⟨(move_grid _ _).1, (move_grid _ _).2.trans hm⟩
  · simp only [ho]
    exact ⟨rfl, hm⟩

/-- The pass keeps the constructed fields of every tile. -/
theorem draw_grid_static (g : Game) (k : Nat) (t : tiles) (hk : g.grid[k]? = some t) :
    ∃ u, (draw_grid g).grid[k]? = some u ∧ same_static u t := by
  obtain ⟨u, hu, hs, -⟩ := (draw_loop_frame g).2.2.2.2.2.2 k t hk
  exact ⟨u, by rw [(draw_grid_grid g).1]; exact hu, hs⟩

/-- One pass on a fragile tile that no toggle of the pass can reach: it is
invisible afterwards exactly when it was invisible before or both
footprints are on it. -/
theorem draw_loop_fragile (g : Game) (hm : g.mapInd < max_maps) (k : Nat) (t : tiles)
    (hk : g.grid[k]? = some t) (ht : t.type = 2) (hl : (t.i, t.j) ∉ switch_links g.mapInd) :
    ∃ u, (draw_loop g).g.grid[k]? = some u ∧
      (u.show_ = 0 ↔ (t.show_ = 0 ∨ (footprint1_on g t ∧ footprint2_on g t))) := by
  have hlt : k < g.grid.length := (List.getElem?_eq_some.1 hk).1
  have hunl : ∀ i j, (t.i, t.j) ∉ links_of g.mapInd i j := by
    intro i j hc
    rw [links_of_shipped _ hm] at hc
    rw [switch_links_shipped _ hm] at hl
    by_cases hij : i = 4 ∧ j = 2
    · rw [if_pos hij] at hc; exact hl hc
    · rw [if_neg hij] at hc; simp at hc
  have key := (draw_loop_induct g
    (fun n s => ∃ u, s.g.grid[k]? = some u ∧ u.i = t.i ∧ u.j = t.j ∧
      (u.show_ = 0 ↔ (t.show_ = 0 ∨ (k < n ∧ footprint1_on g t ∧ footprint2_on g t))))
    ⟨t, hk, rfl, rfl, by simp⟩ ?_).1
  · obtain ⟨u, hu, -, -, hs⟩ := key
    exact ⟨u, hu, by simpa [hlt] using hs⟩
  · intro n s t0 h0 hF ⟨u, hu, hi, hj, hs⟩
    obtain ⟨-, -, -, -, -, -, -, hgrid⟩ := draw_tile_step g n s t0 hF h0
    refine ⟨tile_step g t0 n k u, by rw [hgrid k, hu]; rfl, ?_, ?_, ?_⟩
    · exact (tile_step_static g t0 n k u).1.2.1.trans hi
    · exact (tile_step_static g t0 n k u).1.2.2.1.trans hj
    · have htog : (toggle_tile g.mapInd t0.i t0.j u).show_ = 0 ↔ u.show_ = 0 :=
        toggle_tile_unlinked g.mapInd hm t0.i t0.j u (by rw [hi, hj]; exact hunl _ _)
      by_cases hkn : k = n
      · subst hkn
        have htt : t0 = t := Option.some.inj (h0.symm.trans hk)
        subst htt
        by_cases hboth : footprint1_on g t0 ∧ footprint2_on g t0
        · by_cases hf : fires g t0 = true <;>
            simp [tile_step, own_update, ht, hf, hboth, occupied1_iff, occupied2_iff]
        · by_cases hf : fires g t0 = true
          · simp [tile_step, own_update, ht, hf, hboth, occupied1_iff, occupied2_iff, htog, hs]
          · simp [tile_step, own_update, ht, hf, hboth, occupied1_iff, occupied2_iff, hs]
      · have hlt' : k < n + 1 ↔ k < n := by omega
        by_cases hf : fires g t0 = true
        · simp [tile_step, hkn, hf, htog, hs, hlt']
        · simp [tile_step, hkn, hf, hs, hlt']

theorem draw_grid_static_rev (g : Game) (k : Nat) (u : tiles)
    (hk : (draw_grid g).grid[k]? = some u) : ∃ t, g.grid[k]? = some t ∧ same_static u t := by
  have hlen : (draw_grid g).grid.length = g.grid.length := by
    rw [(draw_grid_grid g).1]; exact (draw_loop_frame g).2.2.2.2.2.1
  have hlt : k < g.grid.length := by
    rw [← hlen]; exact (List.getElem?_eq_some.1 hk).1
  obtain ⟨u', hu', hs⟩ := draw_grid_static g k _ (List.getElem?_eq_getElem hlt)
  rw [hk] at hu'
  exact ⟨_, List.getElem?_eq_getElem hlt, by rw [Option.some.inj hu']; exact hs⟩

theorem links_only_bridges_round (g : Game) (dirs : List Int) (hl : links_only_bridges g) :
    links_only_bridges (draw_grid (dirs.foldl move g)) := by
  intro u hu hlink
  obtain ⟨k, hk⟩ := List.mem_iff_getElem?.1 hu
  obtain ⟨t, ht, hs⟩ := draw_grid_static_rev _ k u hk
  rw [(moves_grid dirs g).1] at ht
  rw [(draw_grid_grid _).2, (moves_grid dirs g).2] at hlink
  rw [hs.1]
  apply hl t (List.mem_iff_getElem?.2 ⟨k, ht⟩)
  rw [← hs.2.1, ← hs.2.2.1]
  exact hlink

/-- One pass on a fragile tile, when the switch table names only bridges. -/
theorem draw_grid_fragile (g : Game) (hm : g.mapInd < max_maps) (hl : links_only_bridges g)
    (k : Nat) (t : tiles) (hk : g.grid[k]? = some t) (ht : t.type = 2) :
    ∃ u, (draw_grid g).grid[k]? = some u ∧ u.type = 2 ∧
      (u.show_ = 0 ↔ (t.show_ = 0 ∨ (footprint1_on g t ∧ footprint2_on g t))) := by
  have hnl : (t.i, t.j) ∉ switch_links g.mapInd := by
    intro hc
    have := hl t (List.mem_iff_getElem?.2 ⟨k, hk⟩) hc
    omega
  obtain ⟨u, hu, hs⟩ := draw_loop_fragile g hm k t hk ht hnl
  obtain ⟨u', hu', hst⟩ := draw_grid_static g k t hk
  rw [(draw_grid_grid g).1, hu] at hu'
  rw [← Option.some.inj hu'] at hst
  exact ⟨u, by rw [(draw_grid_grid g).1]; exact hu, hst.1.trans ht, hs⟩

theorem play_fragile_stays_broken (rounds : List (List Int)) (g : Game)
    (hm : g.mapInd < max_maps) (hl : links_only_bridges g)
    (k : Nat) (t : tiles) (hk : g.grid[k]? = some t) (ht : t.type = 2) (h0 : t.show_ = 0) :
    ∃ u, (play g rounds).grid[k]? = some u ∧ u.type = 2 ∧ u.show_ = 0 := by
  induction rounds generalizing g t with
  | nil => exact ⟨t, hk, ht, h0⟩
  | cons dirs rounds ih =>
    have hg := moves_grid dirs g
    obtain ⟨u, hu, hu2, hus⟩ := draw_grid_fragile (dirs.foldl move g) (by rw [hg.2]; exact hm)
      (fun v hv hlink => hl v (by rw [← hg.1]; exact hv) (by rw [← hg.2]; exact hlink))
      k t (by rw [hg.1]; exact hk) ht
    have := ih (draw_grid (dirs.foldl move g))
      (by rw [(draw_grid_grid _).2, hg.2]; exact hm)
      (links_only_bridges_round g dirs hl) u hu hu2 (hus.2 (Or.inl h0))
    simpa [play] using this

/-- C5: when the switch table names only Bridge tiles, a Fragile tile that
is visible before a pass is invisible after it exactly when both footprints
have its `(x, z)`; and a Fragile tile that is invisible stays invisible
through every later round of moves and evaluation pass. -/
theorem fragile_breaks_iff (g : Game) (hm : g.mapInd < max_maps) (hl : links_only_bridges g)
    (k : Nat) (t : tiles) (hk : g.grid[k]? = some t) (ht : t.type = 2) :
    (t.show_ ≠ 0 →
      ∃ u, (draw_grid g).grid[k]? = some u ∧ u.type = 2 ∧
        (u.show_ = 0 ↔ (footprint1_on g t ∧ footprint2_on g t))) ∧
    (t.show_ = 0 →
      ∀ rounds : List (List Int),
        ∃ u, (play g rounds).grid[k]? = some u ∧ u.type = 2 ∧ u.show_ = 0) := by
  constructor
  · intro hv
    obtain ⟨u, hu, hu2, hs⟩ := draw_grid_fragile g hm hl k t hk ht
    exact ⟨u, hu, hu2, by simpa [hv] using hs⟩
  · intro h0 rounds
    exact play_fragile_stays_broken rounds g hm hl k t hk ht h0

theorem fragile_breaks_iff_witness :
    (demoGame 1 3 5).mapInd < max_maps ∧ links_only_bridges (demoGame 1 3 5) ∧
    (demoGame 1 3 5).grid[6]? = some (tiles.new 8 0 2 0) ∧ (tiles.new 8 0 2 0).type = 2 ∧
    ((tiles.new 8 0 2 0).show_ ≠ 0 →
      ∃ u, (draw_grid (demoGame 1 3 5)).grid[6]? = some u ∧ u.type = 2 ∧
        (u.show_ = 0 ↔ (footprint1_on (demoGame 1 3 5) (tiles.new 8 0 2 0) ∧
          footprint2_on (demoGame 1 3 5) (tiles.new 8 0 2 0)))) ∧
    ((tiles.new 8 0 2 0).show_ = 0 →
      ∀ rounds : List (List Int),
        ∃ u, (play (demoGame 1 3 5) rounds).grid[6]? = some u ∧ u.type = 2 ∧ u.show_ = 0) :=
  ⟨by decide!, by decide!, by decide!, by decide!,
    fragile_breaks_iff (demoGame 1 3 5) (by decide!) (by decide!) 6 (tiles.new 8 0 2 0)
      (by decide!) (by decide!)⟩

/-! ## Switches -/

theorem own_update_show (g : Game) (t u : tiles) :
    (own_update g t u).show_ =
      if t.type = 2 ∧ footprint1_on g t ∧ footprint2_on g t then 0 else u.show_ := by
  unfold own_update
  by_cases h2 : t.type = 2
  · by_cases hb : footprint1_on g t ∧ footprint2_on g t
    · simp [h2, hb, occupied1_iff, occupied2_iff]
    · have hb' : ¬ (occupied1 g t = true ∧ occupied2 g t = true) := by
        rw [occupied1_iff, occupied2_iff]; exact hb
      simp [h2, hb]
      intro h1 h2'
      exact absurd ⟨(occupied1_iff g t).1 h1, (occupied2_iff g t).1 h2'⟩ hb
  · by_cases h : t.type = 1 ∨ t.type = 3 ∨ t.type = 4 ∨ t.type = 5 <;> simp [h, h2]

theorem own_update_state (g : Game) (t u : tiles)
    (ht : t.type = 1 ∨ t.type = 2 ∨ t.type = 3 ∨ t.type = 4 ∨ t.type = 5) :
    (own_update g t u).state = boolToInt (occupied1 g t || occupied2 g t) := by
  unfold own_update
  rcases ht with h | h | h | h | h <;> simp [h]

/-- After the loop a tile of one of the five kinds records in `state`
whether a footprint is on it. -/
theorem draw_loop_state (g : Game) (l : Nat) (t : tiles) (hl : g.grid[l]? = some t)
    (ht : t.type = 1 ∨ t.type = 2 ∨ t.type = 3 ∨ t.type = 4 ∨ t.type = 5) :
    ∃ u, (draw_loop g).g.grid[l]? = some u ∧
      u.state = boolToInt (occupied1 g t || occupied2 g t) := by
  have hlt : l < g.grid.length := (List.getElem?_eq_some.1 hl).1
  have key := (draw_loop_induct g
    (fun n s => l < n → ∃ u, s.g.grid[l]? = some u ∧
      u.state = boolToInt (occupied1 g t || occupied2 g t))
    (fun h => absurd h (Nat.not_lt_zero l)) ?_).1
  · exact key hlt
  · intro n s t0 h0 hF hQ hln
    obtain ⟨v, hv, -, -, -, -, -, hgrid⟩ := draw_tile_step g n s t0 hF h0
    rcases Nat.lt_succ_iff_lt_or_eq.1 hln with hlt' | heq
    · obtain ⟨u, hu, hus⟩ := hQ hlt'
      refine ⟨tile_step g t0 n l u, by rw [hgrid l, hu]; rfl, ?_⟩
      rw [(tile_step_static g t0 n l u).2 (by omega), hus]
    · subst heq
      have htt : t0 = t := Option.some.inj (h0.symm.trans hl)
      subst htt
      refine ⟨tile_step g t0 l l v, by rw [hgrid l, hv]; rfl, ?_⟩
      simp only [tile_step, if_true]
      exact own_update_state g t0 _ ht

/-- A pass in which no iteration calls `toggle_bridge` and no fragile tile
is under both footprints leaves every `show` as it was. -/
theorem draw_loop_quiet (g : Game) (hnf : ∀ t ∈ g.grid, ¬ fires g t = true)
    (hnb : ∀ t ∈ g.grid, ¬ (t.type = 2 ∧ footprint1_on g t ∧ footprint2_on g t))
    (l : Nat) (q : tiles) (hl : g.grid[l]? = some q) :
    ∃ u, (draw_loop g).g.grid[l]? = some u ∧ u.show_ = q.show_ := by
  refine (draw_loop_induct g
    (fun _ s => ∃ u, s.g.grid[l]? = some u ∧ u.show_ = q.show_) ⟨q, hl, rfl⟩ ?_).1
  intro n s t0 h0 hF ⟨u, hu, hus⟩
  obtain ⟨-, -, -, -, -, -, -, hgrid⟩ := draw_tile_step g n s t0 hF h0
  have hmem : t0 ∈ g.grid := List.mem_iff_getElem?.2 ⟨n, h0⟩
  refine ⟨tile_step g t0 n l u, by rw [hgrid l, hu]; rfl, ?_⟩
  by_cases hln : l = n
  · simp only [tile_step, hln, if_true, hnf t0 hmem, if_false, Bool.false_eq_true]
    rw [own_update_show, if_neg (hnb t0 hmem), hus]
  · simp only [tile_step, hln, if_false, hnf t0 hmem, Bool.false_eq_true]
    exact hus

/-- The pass keeps a grid one of built tiles with distinct coordinates. -/
theorem draw_grid_grid_ok (g : Game) (hb : ∀ t ∈ g.grid, built t)
    (hd : distinct_coords g.grid) :
    (∀ t ∈ (draw_grid g).grid, built t) ∧ distinct_coords (draw_grid g).grid := by
  constructor
  · intro u hu
    obtain ⟨k, hk⟩ := List.mem_iff_getElem?.1 hu
    obtain ⟨t, ht, hs⟩ := draw_grid_static_rev g k u hk
    have := hb t (List.mem_iff_getElem?.2 ⟨k, ht⟩)
    obtain ⟨s1, s2, s3, s4, s5, s6⟩ := hs
    unfold built tiles.new at this ⊢
    simp only at this ⊢
    rw [s2, s3, s4, s6]
    exact this
  · unfold distinct_coords at hd ⊢
    have : (draw_grid g).grid.map (fun t => (t.i, t.j)) = g.grid.map (fun t => (t.i, t.j)) := by
      apply List.ext_getElem?
      intro k
      rw [List.getElem?_map, List.getElem?_map]
      cases hk : (draw_grid g).grid[k]? with
      | none =>
        cases hk' : g.grid[k]? with
        | none => rfl
        | some t =>
          obtain ⟨u, hu, -⟩ := draw_grid_static g k t hk'
          rw [hk] at hu
          cases hu
      | some u =>
        obtain ⟨t, ht, hs⟩ := draw_grid_static_rev g k u hk
        simp [ht, hs.2.1, hs.2.2.1]
    rw [this]
    exact hd

/-- A switch that the pass newly enters flips its linked tiles once, on a
shipped level with distinct tile coordinates, when no fragile
tile is under both footprints. -/
theorem draw_loop_flips (g : Game) (hm : g.mapInd < max_maps)
    (hd : distinct_coords g.grid) (k : Nat) (sw : tiles) (hsw : newly_entered g k sw)
    (hnb : ∀ t ∈ g.grid, ¬ (t.type = 2 ∧ footprint1_on g t ∧ footprint2_on g t)) :
    flips_links g.mapInd sw.i sw.j g.grid (draw_loop g).g.grid := by
  obtain ⟨hk, hs4, hs0, hocc⟩ := hsw
  have hklt : k < g.grid.length := (List.getElem?_eq_some.1 hk).1
  intro l q hl hlink
  have hsw42 : sw.i = 4 ∧ sw.j = 2 := by
    rw [links_of_shipped _ hm] at hlink
    by_contra hc
    rw [if_neg hc] at hlink
    simp at hlink
  have key := (draw_loop_induct g
    (fun n s => ∃ u, s.g.grid[l]? = some u ∧ u.i = q.i ∧ u.j = q.j ∧
      (k < n → (u.show_ = 0 ↔ q.show_ ≠ 0)) ∧ (¬ k < n → (u.show_ = 0 ↔ q.show_ = 0)))
    ⟨q, hl, rfl, rfl, fun h => absurd h (Nat.not_lt_zero k), fun _ => Iff.rfl⟩ ?_).1
  · obtain ⟨u, hu, -, -, hs, -⟩ := key
    exact ⟨u, hu, hs hklt⟩
  · intro n s t0 h0 hF ⟨u, hu, hi, hj, hs1, hs2⟩
    obtain ⟨-, -, -, -, -, -, -, hgrid⟩ := draw_tile_step g n s t0 hF h0
    have hmem : t0 ∈ g.grid := List.mem_iff_getElem?.2 ⟨n, h0⟩
    -- the `show` after the toggle part of the step
    have htog : (k < n + 1 →
          ((if fires g t0 = true then toggle_tile g.mapInd t0.i t0.j u else u).show_ = 0 ↔
            q.show_ ≠ 0)) ∧
        (¬ k < n + 1 →
          ((if fires g t0 = true then toggle_tile g.mapInd t0.i t0.j u else u).show_ = 0 ↔
            q.show_ = 0)) := by
      by_cases hnk : n = k
      · subst hnk
        have htt : t0 = sw := Option.some.inj (h0.symm.trans hk)
        subst htt
        have hf : fires g t0 = true := (fires_iff g t0).2 ⟨hs4, hocc, hs0⟩
        have hlk : (u.i, u.j) ∈ links_of g.mapInd t0.i t0.j := by rw [hi, hj]; exact hlink
        have hq := hs2 (Nat.lt_irrefl n)
        refine ⟨fun _ => ?_, fun h => absurd (Nat.lt_succ_self n) h⟩
        rw [if_pos hf, toggle_tile_linked g.mapInd hm _ _ u hlk]
        unfold cNot
        by_cases hu0 : u.show_ = 0
        · simp [hu0, hq.1 hu0]
        · have : q.show_ ≠ 0 := fun c => hu0 (hq.2 c)
          simp [hu0, this]
      · have hsame : (if fires g t0 = true then toggle_tile g.mapInd t0.i t0.j u else u).show_ = 0
            ↔ u.show_ = 0 := by
          by_cases hf : fires g t0 = true
          · have hne : ¬ (t0.i = 4 ∧ t0.j = 2) := by
              intro hc
              exact hnk (distinct_coords_index g.grid hd n k t0 sw h0 hk
                (hc.1.trans hsw42.1.symm) (hc.2.trans hsw42.2.symm))
            have hunl : (u.i, u.j) ∉ links_of g.mapInd t0.i t0.j := by
              rw [links_of_shipped _ hm, if_neg hne]; simp
            rw [if_pos hf, toggle_tile_unlinked g.mapInd hm _ _ u hunl]
          · rw [if_neg hf]
        rw [hsame]
        exact ⟨fun h => hs1 (by omega), fun h => hs2 (by omega)⟩
    refine ⟨tile_step g t0 n l u, by rw [hgrid l, hu]; rfl,
      (tile_step_static g t0 n l u).1.2.1.trans hi,
      (tile_step_static g t0 n l u).1.2.2.1.trans hj, ?_⟩
    by_cases hln : l = n
    · simp only [tile_step, hln, if_true]
      rw [own_update_show, if_neg (hnb t0 hmem)]
      exact htog
    · simp only [tile_step, hln, if_false]
      exact htog
theorem no_fragile_break_of_not_lost (g : Game) (hb : ∀ t ∈ g.grid, built t)
    (hd : distinct_coords g.grid) (h : (draw_grid g).game_progress ≠ -1) :
    ∀ t ∈ g.grid, ¬ (t.type = 2 ∧ footprint1_on g t ∧ footprint2_on g t) := by
  intro t ht ⟨h2, f1, f2⟩
  apply h
  rw [draw_grid_game_progress, (draw_loop_bad_tile g hb hd t ht (Or.inl ⟨h2, f1, f2⟩)).1 f1]
  simp

/-- One pass that newly enters a switch and does not end Lost flips the
tiles linked to the switch. -/
theorem draw_grid_flips (g : Game) (hm : g.mapInd < max_maps) (hb : ∀ t ∈ g.grid, built t)
    (hd : distinct_coords g.grid) (k : Nat) (sw : tiles) (hsw : newly_entered g k sw)
    (hin : (draw_grid g).game_progress ≠ -1) :
    flips_links g.mapInd sw.i sw.j g.grid (draw_grid g).grid := by
  rw [(draw_grid_grid g).1]
  exact draw_loop_flips g hm hd k sw hsw (no_fragile_break_of_not_lost g hb hd hin)

/-- A second pass right after a pass that did not end Lost, with the piece
where it was, changes no `show`. -/
theorem draw_grid_twice (g : Game) (hb : ∀ t ∈ g.grid, built t)
    (hd : distinct_coords g.grid) (hin : (draw_grid g).game_progress ≠ -1) :
    same_shows (draw_grid g).grid (draw_grid (draw_grid g)).grid := by
  obtain ⟨-, -, e⟩ := draw_grid_not_lost g hin
  have hpiece : (draw_grid g).piece = g.piece := by rw [e]; exact (draw_loop_frame g).1
  have hfp : ∀ u t : tiles, same_static u t →
      (footprint1_on (draw_grid g) u ↔ footprint1_on g t) ∧
      (footprint2_on (draw_grid g) u ↔ footprint2_on g t) := by
    intro u t hs
    simp [footprint1_on, footprint2_on, hpiece, hs.2.2.2.1, hs.2.2.2.2.2]
  have hnf : ∀ u ∈ (draw_grid g).grid, ¬ fires (draw_grid g) u = true := by
    intro u hu hf
    obtain ⟨l, hl⟩ := List.mem_iff_getElem?.1 hu
    obtain ⟨t, ht, hs⟩ := draw_grid_static_rev g l u hl
    obtain ⟨h4, hocc, h0⟩ := (fires_iff _ u).1 hf
    obtain ⟨u', hu', hst⟩ := draw_loop_state g l t ht (by rw [← hs.1]; omega)
    rw [← (draw_grid_grid g).1, hl] at hu'
    rw [← Option.some.inj hu'] at hst
    have : (occupied1 g t || occupied2 g t) = true := by
      rw [Bool.or_eq_true, occupied1_iff, occupied2_iff]
      rcases hocc with c | c
      · exact Or.inl ((hfp u t hs).1.1 c)
      · exact Or.inr ((hfp u t hs).2.1 c)
    rw [this, h0] at hst
    simp [boolToInt] at hst
  have hnb : ∀ u ∈ (draw_grid g).grid,
      ¬ (u.type = 2 ∧ footprint1_on (draw_grid g) u ∧ footprint2_on (draw_grid g) u) := by
    intro u hu ⟨h2, f1, f2⟩
    obtain ⟨l, hl⟩ := List.mem_iff_getElem?.1 hu
    obtain ⟨t, ht, hs⟩ := draw_grid_static_rev g l u hl
    exact no_fragile_break_of_not_lost g hb hd hin t (List.mem_iff_getElem?.2 ⟨l, ht⟩)
      ⟨hs.1.symm.trans h2, (hfp u t hs).1.1 f1, (hfp u t hs).2.1 f2⟩
  intro l q hl
  rw [(draw_grid_grid (draw_grid g)).1]
  exact draw_loop_quiet (draw_grid g) hnf hnb l q hl

/-- A pass with no footprint on a switch tile records `state = 0` on it. -/
theorem draw_grid_leaves_switch (g : Game) (k : Nat) (sw : tiles) (hk : g.grid[k]? = some sw)
    (h4 : sw.type = 4) (h1 : ¬ footprint1_on g sw) (h2 : ¬ footprint2_on g sw) :
    ∃ u, (draw_grid g).grid[k]? = some u ∧ same_static u sw ∧ u.state = 0 := by
  obtain ⟨u, hu, hs⟩ := draw_grid_static g k sw hk
  obtain ⟨u', hu', hst⟩ := draw_loop_state g k sw hk (by omega)
  rw [← (draw_grid_grid g).1, hu] at hu'
  rw [← Option.some.inj hu'] at hst
  have o1 : occupied1 g sw = false := by
    rw [← Bool.not_eq_true, occupied1_iff]; exact h1
  have o2 : occupied2 g sw = false := by
    rw [← Bool.not_eq_true, occupied2_iff]; exact h2
  rw [o1, o2] at hst
  exact ⟨u, hu, hs, by simpa [boolToInt] using hst⟩

/-- A footprint on a switch tile leaves no fragile tile under both
footprints, on a grid of built tiles with distinct coordinates. -/
theorem no_fragile_break_on_switch (g : Game) (hb : ∀ t ∈ g.grid, built t)
    (hd : distinct_coords g.grid) (k : Nat) (sw : tiles) (hk : g.grid[k]? = some sw)
    (h4 : sw.type = 4) (hocc : footprint1_on g sw ∨ footprint2_on g sw) :
    ∀ t ∈ g.grid, ¬ (t.type = 2 ∧ footprint1_on g t ∧ footprint2_on g t) := by
  intro t ht ⟨h2, f1, f2⟩
  obtain ⟨l, hl⟩ := List.mem_iff_getElem?.1 ht
  have hxz : sw.x = t.x ∧ sw.z = t.z := by
    rcases hocc with c | c
    · exact ⟨c.1.symm.trans f1.1, c.2.symm.trans f1.2⟩
    · exact ⟨c.1.symm.trans f2.1, c.2.symm.trans f2.2⟩
  have hkl := same_place_index g hb hd k l sw t hk hl hxz.1 hxz.2
  rw [hkl, hl] at hk
  rw [Option.some.inj hk, h4] at h2
  exact absurd h2 (by decide)

/-- C6: on a shipped level whose grid has built tiles with pairwise distinct
coordinates, when a footprint is on a switch whose recorded `state` is 0 and
the pass ends InProgress: the pass flips the tiles linked to the switch; a
second pass right after changes no `show`; and after a pass with no
footprint on the switch, the next pass with a footprint on it flips the
linked tiles again, whatever its outcome. -/
theorem switch_edge_triggered (g : Game) (hm : g.mapInd < max_maps)
    (hb : ∀ t ∈ g.grid, built t) (hd : distinct_coords g.grid)
    (k : Nat) (sw : tiles) (hsw : newly_entered g k sw)
    (hin : (draw_grid g).game_progress = 0) :
    flips_links g.mapInd sw.i sw.j g.grid (draw_grid g).grid ∧
    same_shows (draw_grid g).grid (draw_grid (draw_grid g)).grid ∧
    ∀ h : Game, h.grid = (draw_grid (draw_grid g)).grid → h.mapInd = g.mapInd →
      ¬ footprint1_on h sw → ¬ footprint2_on h sw →
      ∀ h2 : Game, h2.grid = (draw_grid h).grid → h2.mapInd = g.mapInd →
        (footprint1_on h2 sw ∨ footprint2_on h2 sw) →
        flips_links g.mapInd sw.i sw.j h2.grid (draw_grid h2).grid := by
  have hnl : (draw_grid g).game_progress ≠ -1 := by rw [hin]; decide
  refine ⟨draw_grid_flips g hm hb hd k sw hsw hnl, draw_grid_twice g hb hd hnl, ?_⟩
  intro h hg hmh hf1 hf2 h2 hg2 hmh2 hocc
  -- the switch tile, pass by pass
  obtain ⟨s1, hs1, st1⟩ := draw_grid_static g k sw hsw.1
  obtain ⟨s2, hs2, st2⟩ := draw_grid_static (draw_grid g) k s1 hs1
  rw [← hg] at hs2
  have hxz : ∀ (a b : tiles) (p : Game), same_static a b →
      (footprint1_on p a ↔ footprint1_on p b) ∧ (footprint2_on p a ↔ footprint2_on p b) := by
    intro a b p hs
    simp [footprint1_on, footprint2_on, hs.2.2.2.1, hs.2.2.2.2.2]
  have st12 : same_static s2 sw :=
    ⟨st2.1.trans st1.1, st2.2.1.trans st1.2.1, st2.2.2.1.trans st1.2.2.1,
      st2.2.2.2.1.trans st1.2.2.2.1, st2.2.2.2.2.1.trans st1.2.2.2.2.1,
      st2.2.2.2.2.2.trans st1.2.2.2.2.2⟩
  obtain ⟨s3, hs3, st3, hstate⟩ := draw_grid_leaves_switch h k s2 hs2
    (st12.1.trans hsw.2.1) (fun c => hf1 ((hxz s2 sw h st12).1.1 c))
    (fun c => hf2 ((hxz s2 sw h st12).2.1 c))
  rw [← hg2] at hs3
  have st : same_static s3 sw :=
    ⟨st3.1.trans st12.1, st3.2.1.trans st12.2.1, st3.2.2.1.trans st12.2.2.1,
      st3.2.2.2.1.trans st12.2.2.2.1, st3.2.2.2.2.1.trans st12.2.2.2.2.1,
      st3.2.2.2.2.2.trans st12.2.2.2.2.2⟩
  -- the grids stay built and distinct
  obtain ⟨b1, d1⟩ := draw_grid_grid_ok g hb hd
  obtain ⟨b2, d2⟩ := draw_grid_grid_ok (draw_grid g) b1 d1
  rw [← hg] at b2 d2
  obtain ⟨b3, d3⟩ := draw_grid_grid_ok h b2 d2
  rw [← hg2] at b3 d3
  have hnew : newly_entered h2 k s3 :=
    ⟨hs3, st.1.trans hsw.2.1, hstate, by
      rcases hocc with c | c
      · exact Or.inl ((hxz s3 sw h2 st).1.2 c)
      · exact Or.inr ((hxz s3 sw h2 st).2.2 c)⟩
  have := draw_loop_flips h2 (by rw [hmh2]; exact hm) d3 k s3 hnew
    (no_fragile_break_on_switch h2 b3 d3 k s3 hnew.1 hnew.2.1 hnew.2.2.2)
  rw [hmh2, st.2.1, st.2.2.1, ← (draw_grid_grid h2).1] at this
  exact this

theorem switch_edge_triggered_witness :
    (demoGame 0 (-1/2) 3).mapInd < max_maps ∧ (∀ t ∈ (demoGame 0 (-1/2) 3).grid, built t) ∧
    distinct_coords (demoGame 0 (-1/2) 3).grid ∧
    newly_entered (demoGame 0 (-1/2) 3) 0 (tiles.new 4 2 4 0) ∧
    (draw_grid (demoGame 0 (-1/2) 3)).game_progress = 0 ∧
    (flips_links (demoGame 0 (-1/2) 3).mapInd (tiles.new 4 2 4 0).i (tiles.new 4 2 4 0).j
        (demoGame 0 (-1/2) 3).grid (draw_grid (demoGame 0 (-1/2) 3)).grid ∧
      same_shows (draw_grid (demoGame 0 (-1/2) 3)).grid
        (draw_grid (draw_grid (demoGame 0 (-1/2) 3))).grid ∧
      ∀ h : Game, h.grid = (draw_grid (draw_grid (demoGame 0 (-1/2) 3))).grid →
        h.mapInd = (demoGame 0 (-1/2) 3).mapInd →
        ¬ footprint1_on h (tiles.new 4 2 4 0) → ¬ footprint2_on h (tiles.new 4 2 4 0) →
        ∀ h2 : Game, h2.grid = (draw_grid h).grid → h2.mapInd = (demoGame 0 (-1/2) 3).mapInd →
          (footprint1_on h2 (tiles.new 4 2 4 0) ∨ footprint2_on h2 (tiles.new 4 2 4 0)) →
          flips_links (demoGame 0 (-1/2) 3).mapInd (tiles.new 4 2 4 0).i (tiles.new 4 2 4 0).j
            h2.grid (draw_grid h2).grid) :=
  ⟨by decide!, by decide!, by decide!, by decide!, by decide!,
    switch_edge_triggered (demoGame 0 (-1/2) 3) (by decide!) (by decide!) (by decide!) 0
      (tiles.new 4 2 4 0) (by decide!) (by decide!)⟩

/-! ## `toggle_bridge` -/

theorem cNot_cNot (v : Int) (h : v = 0 ∨ v = 1) : cNot (cNot v) = v := by
  rcases h with h | h <;> simp [h, cNot]

theorem cNot_boolean (v : Int) : cNot v = 0 ∨ cNot v = 1 := by
  unfold cNot; split <;> simp

theorem flip_tile_boolean (t : tiles) (p q : Int) (h : t.show_ = 0 ∨ t.show_ = 1) :
    (flip_tile t p q).show_ = 0 ∨ (flip_tile t p q).show_ = 1 := by
  rw [flip_tile_show]; split
  · exact cNot_boolean _
  · exact h

theorem flip_tile_twice (t : tiles) (p q : Int) (h : t.show_ = 0 ∨ t.show_ = 1) :
    flip_tile (flip_tile t p q) p q = t := by
  by_cases hc : t.i = p ∧ t.j = q
  · cases t
    simp only [flip_tile] at hc ⊢
    simp [hc, cNot_cNot _ h]
  · simp [flip_tile, hc]

theorem flip_tile_other (t : tiles) (p q : Int) (h : ¬ (t.i = p ∧ t.j = q)) :
    flip_tile t p q = t := by
  simp [flip_tile, h]

/-- One `toggle_bridge(i, j)` on a shipped level, on a tile whose flag is 0
or 1: the flag is negated when the table lists the tile for `(i, j)`, and
the tile is unchanged otherwise. -/
theorem toggle_tile_boolean (m : Nat) (hm : m < max_maps) (i j : Int) (t : tiles)
    (h : t.show_ = 0 ∨ t.show_ = 1) :
    toggle_tile m i j t =
      if (t.i, t.j) ∈ links_of m i j then { t with show_ := cNot t.show_ } else t := by
  rw [toggle_tile_shipped m hm, links_of_shipped m hm]
  by_cases h1 : i = 4 ∧ j = 2
  · simp only [h1, and_self, if_true]
    rw [flip_tile_twice _ _ _ (flip_tile_boolean _ _ _ (flip_tile_boolean _ _ _ h))]
    by_cases h64 : t.i = 6 ∧ t.j = 4
    · have h65 : ¬ ((flip_tile t 6 4).i = 6 ∧ (flip_tile t 6 4).j = 5) := by
        rw [flip_tile_i, flip_tile_j]; omega
      rw [flip_tile_other _ _ _ h65]
      simp [flip_tile, h64]
    · rw [flip_tile_other t _ _ h64]
      by_cases h65 : t.i = 6 ∧ t.j = 5
      · simp [flip_tile, h65]
      · rw [flip_tile_other t _ _ h65]
        have : ¬ ((t.i, t.j) ∈ [((6 : Int), (4 : Int)), (6, 5)]) := by
          simp only [List.mem_cons, Prod.mk.injEq, List.mem_singleton, List.not_mem_nil,
            or_false, not_or]
          exact ⟨h64, h65⟩
        rw [if_neg this]
  · by_cases h2 : i = -1 ∧ j = -1
    · rw [if_neg h1, if_pos h2, if_neg h1,
        flip_tile_twice _ _ _ (flip_tile_boolean _ _ _ (flip_tile_boolean _ _ _ h)),
        flip_tile_twice _ _ _ h]
      simp
    · simp [h1, h2]

theorem toggle_tile_twice (m : Nat) (hm : m < max_maps) (i j : Int) (t : tiles)
    (h : t.show_ = 0 ∨ t.show_ = 1) : toggle_tile m i j (toggle_tile m i j t) = t := by
  have hb : (toggle_tile m i j t).show_ = 0 ∨ (toggle_tile m i j t).show_ = 1 := by
    rw [toggle_tile_boolean m hm i j t h]
    split
    · exact cNot_boolean _
    · exact h
  rw [toggle_tile_boolean m hm i j _ hb, toggle_tile_boolean m hm i j t h]
  by_cases hl : (t.i, t.j) ∈ links_of m i j
  · cases t
    simp only [if_pos hl] at hl ⊢
    simp [hl, cNot_cNot _ h]
  · simp [hl]

theorem toggle_bridge_not_switch (g : Game) (i j : Int)
    (h : ¬ is_switch_coord g.mapInd i j) : toggle_bridge g i j = g := by
  have h0 : ¬ (switchesAt g.mapInd 0 0 = i ∧ switchesAt g.mapInd 0 1 = j) := fun c =>
    h ⟨0, by decide, c⟩
  have h1 : ¬ (switchesAt g.mapInd 1 0 = i ∧ switchesAt g.mapInd 1 1 = j) := fun c =>
    h ⟨1, by decide, c⟩
  simp [toggle_bridge, max_switches, List.range, List.range.loop, h0, h1]

/-- C19: on a shipped level and a grid whose visibility flags are 0 or 1,
`toggle_bridge(i, j)` twice restores the game exactly; one call changes no
global but `grid`, keeps its length, negates the flag of the tiles the table
lists for `(i, j)` and leaves every other tile as it is; and it changes
nothing at all when `(i, j)` is not a switch coordinate of the level. -/
theorem toggle_bridge_involution (g : Game) (hm : g.mapInd < max_maps)
    (hb : shows_boolean g.grid) (i j : Int) :
    toggle_bridge (toggle_bridge g i j) i j = g ∧
    toggle_bridge g i j =
      { g with grid := g.grid.map fun t =>
          if (t.i, t.j) ∈ links_of g.mapInd i j then { t with show_ := cNot t.show_ } else t } ∧
    (¬ is_switch_coord g.mapInd i j → toggle_bridge g i j = g) := by
  have hone : g.grid.map (toggle_tile g.mapInd i j) =
      g.grid.map fun t =>
        if (t.i, t.j) ∈ links_of g.mapInd i j then { t with show_ := cNot t.show_ } else t :=
    List.map_congr_left fun t ht => toggle_tile_boolean g.mapInd hm i j t (hb t ht)
  refine ⟨?_, ?_, toggle_bridge_not_switch g i j⟩
  · rw [toggle_bridge_eq, toggle_bridge_eq]
    simp only [List.map_map]
    have : g.grid.map (toggle_tile g.mapInd i j ∘ toggle_tile g.mapInd i j) = g.grid := by
      conv_rhs => rw [← List.map_id g.grid]
      exact List.map_congr_left fun t ht => toggle_tile_twice g.mapInd hm i j t (hb t ht)
    rw [this]
  · rw [toggle_bridge_eq, hone]

theorem toggle_bridge_involution_witness :
    (demoGame 1 0 3).mapInd < max_maps ∧ shows_boolean (demoGame 1 0 3).grid ∧
    toggle_bridge (toggle_bridge (demoGame 1 0 3) 4 2) 4 2 = demoGame 1 0 3 ∧
    toggle_bridge (demoGame 1 0 3) 4 2 =
      { demoGame 1 0 3 with grid := (demoGame 1 0 3).grid.map fun t =>
          if (t.i, t.j) ∈ links_of (demoGame 1 0 3).mapInd 4 2 then
            { t with show_ := cNot t.show_ } else t } ∧
    (¬ is_switch_coord (demoGame 1 0 3).mapInd 4 2 →
      toggle_bridge (demoGame 1 0 3) 4 2 = demoGame 1 0 3) :=
  ⟨by decide!, by decide!,
    toggle_bridge_involution (demoGame 1 0 3) (by decide!) (by decide!) 4 2⟩

/-! ## After the outcome is decided -/

theorem move_piece_congr (g h : Game) (d : Int) (hg : g.game_progress = 0)
    (hh : h.game_progress = 0) (hp : h.piece = g.piece) :
    (move h d).piece = (move g d).piece := by
  simp [move, hg, hh, hp]

theorem move_over (g : Game) (d : Int) (h : g.game_progress ≠ 0) :
    (move g d).piece = g.piece ∧ (move g d).game_progress = g.game_progress := by
  simp [move, h]

theorem moves_over (dirs : List Int) (g : Game) (h : g.game_progress ≠ 0) :
    (dirs.foldl move g).piece = g.piece ∧
    (dirs.foldl move g).game_progress = g.game_progress := by
  induction dirs generalizing g with
  | nil => exact ⟨rfl, rfl⟩
  | cons d ds ih =>
    obtain ⟨m1, m2⟩ := move_over g d h
    obtain ⟨i1, i2⟩ := ih (move g d) (by rw [m2]; exact h)
    rw [List.foldl_cons]
    exact ⟨i1.trans m1, i2.trans m2⟩

theorem draw_loop_game_progress_cases (g : Game) :
    (draw_loop g).g.game_progress = 1 ∨ (draw_loop g).g.game_progress = g.game_progress := by
  by_cases hgoal : ∃ t ∈ g.grid, t.type = 5 ∧ footprint1_on g t ∧ footprint2_on g t
  · exact Or.inl ((draw_loop_goal g).1 hgoal)
  · exact Or.inr ((draw_loop_goal g).2 hgoal)

/-- A pass that starts with the outcome decided leaves the piece alone and
the outcome decided. -/
theorem draw_grid_over (g : Game) (h : g.game_progress ≠ 0) :
    (draw_grid g).piece = g.piece ∧ (draw_grid g).game_progress ≠ 0 := by
  have hp := (draw_loop_frame g).1
  have hgp : (draw_loop g).g.game_progress ≠ 0 := by
    rcases draw_loop_game_progress_cases g with c | c
    · rw [c]; decide
    · rw [c]; exact h
  unfold draw_grid
  by_cases ho : ((draw_loop g).off_grid_1 || (draw_loop g).off_grid_2) = true
  · simp only [ho, if_true]
    exact ⟨(move_over _ _ hgp).1.trans hp, by decide⟩
  · simp only [ho]
    exact ⟨hp, hgp⟩

theorem play_over (rounds : List (List Int)) (g : Game) (h : g.game_progress ≠ 0) :
    (play g rounds).piece = g.piece ∧ (play g rounds).game_progress ≠ 0 := by
  induction rounds generalizing g with
  | nil => exact ⟨rfl, h⟩
  | cons dirs rounds ih =>
    obtain ⟨m1, m2⟩ := moves_over dirs g h
    obtain ⟨d1, d2⟩ := draw_grid_over (dirs.foldl move g) (by rw [m2]; exact h)
    obtain ⟨i1, i2⟩ := ih (draw_grid (dirs.foldl move g)) d2
    simp only [play, List.foldl_cons] at i1 i2 ⊢
    exact ⟨i1.trans (d1.trans m1), i2⟩
theorem move_piece_table (g : Game) (dir : Int) (hp : g.game_progress = 0)
    (hs : g.piece.state = 0 ∨ g.piece.state = 1 ∨ g.piece.state = 2)
    (hd : dir = 0 ∨ dir = 1 ∨ dir = 2 ∨ dir = 3) :
    (move g dir).piece.state = (transition_table g.piece.state dir).1 ∧
    (move g dir).piece.x = g.piece.x + (transition_table g.piece.state dir).2.1 ∧
    (move g dir).piece.y = g.piece.y + (transition_table g.piece.state dir).2.2.1 ∧
    (move g dir).piece.z = g.piece.z + (transition_table g.piece.state dir).2.2.2 ∧
    (move g dir).piece.moves = g.piece.moves + 1 := by
  rcases hs with hs | hs | hs <;> rcases hd with hd | hd | hd | hd <;>
    (refine ⟨?_, ?_, ?_, ?_, ?_⟩ <;>
      simp [move, hp, hs, hd, cuboid.roll, cuboid.footprints, transition_table, side] <;>
      ring)

/-- A pass from InProgress that ends Lost, on a grid of built tiles with
distinct coordinates: an off-grid flag was set, and the piece afterwards is
the piece after one `move(last_move)`. -/
theorem draw_grid_replay_lost (g : Game) (hp : g.game_progress = 0)
    (hb : ∀ t ∈ g.grid, built t) (hd : distinct_coords g.grid)
    (hl : (draw_grid g).game_progress = -1) :
    ((draw_loop g).off_grid_1 = true ∨ (draw_loop g).off_grid_2 = true) ∧
    (draw_grid g).piece = (move g g.last_move).piece := by
  have hoff : (draw_loop g).off_grid_1 = true ∨ (draw_loop g).off_grid_2 = true := by
    by_contra hc
    rw [draw_grid_game_progress, if_neg hc] at hl
    rcases draw_loop_game_progress_cases g with c | c
    · rw [c] at hl; exact absurd hl (by decide)
    · rw [c, hp] at hl; exact absurd hl (by decide)
  have hno : ¬ ∃ t ∈ g.grid, t.type = 5 ∧ footprint1_on g t ∧ footprint2_on g t := by
    rintro ⟨t, ht, h5, f1, f2⟩
    obtain ⟨o1, o2⟩ := draw_loop_covered g hb hd t ht f1 f2 (by rw [h5]; decide)
      (by rw [h5]; decide)
    rcases hoff with h | h
    · rw [o1] at h; exact absurd h (by decide)
    · rw [o2] at h; exact absurd h (by decide)
  have hgp : (draw_loop g).g.game_progress = 0 := by
    rw [(draw_loop_goal g).2 hno]; exact hp
  obtain ⟨fp, -, fl, -⟩ := draw_loop_frame g
  refine ⟨hoff, ?_⟩
  have hoff' : ((draw_loop g).off_grid_1 || (draw_loop g).off_grid_2) = true := by
    rcases hoff with h | h <;> simp [h]
  unfold draw_grid
  simp only [hoff', if_true]
  rw [fl]
  exact move_piece_congr g (draw_loop g).g g.last_move hp hgp fp

/-- C15: from InProgress, with a recorded direction, on a grid of built
tiles with pairwise distinct coordinates: a pass that ends Lost, whatever set
the off-grid flag (a footprint over no tile, a fragile tile under both
footprints, a hidden bridge under a footprint), has applied
`move(last_move)` once: orientation and center follow the transition table
for the recorded direction and `moves` grows by one; afterwards no round of
moves and evaluation pass changes the piece, and the outcome never returns
to InProgress. -/
theorem loss_replays_last_move (g : Game) (hp : g.game_progress = 0)
    (hb : ∀ t ∈ g.grid, built t) (hdc : distinct_coords g.grid)
    (hs : g.piece.state = 0 ∨ g.piece.state = 1 ∨ g.piece.state = 2)
    (hd : g.last_move = 0 ∨ g.last_move = 1 ∨ g.last_move = 2 ∨ g.last_move = 3)
    (hl : (draw_grid g).game_progress = -1) :
    ((draw_loop g).off_grid_1 = true ∨ (draw_loop g).off_grid_2 = true) ∧
    (draw_grid g).piece = (move g g.last_move).piece ∧
    (draw_grid g).piece.state = (transition_table g.piece.state g.last_move).1 ∧
    (draw_grid g).piece.x = g.piece.x + (transition_table g.piece.state g.last_move).2.1 ∧
    (draw_grid g).piece.y = g.piece.y + (transition_table g.piece.state g.last_move).2.2.1 ∧
    (draw_grid g).piece.z = g.piece.z + (transition_table g.piece.state g.last_move).2.2.2 ∧
    (draw_grid g).piece.moves = g.piece.moves + 1 ∧
    ∀ rounds : List (List Int),
      (play (draw_grid g) rounds).piece = (draw_grid g).piece ∧
      (play (draw_grid g) rounds).game_progress ≠ 0 := by
  obtain ⟨hoff, hpc⟩ := draw_grid_replay_lost g hp hb hdc hl
  obtain ⟨t1, t2, t3, t4, t5⟩ := move_piece_table g g.last_move hp hs hd
  refine ⟨hoff, hpc, ?_, ?_, ?_, ?_, ?_, ?_⟩
  · rw [hpc]; exact t1
  · rw [hpc]; exact t2
  · rw [hpc]; exact t3
  · rw [hpc]; exact t4
  · rw [hpc]; exact t5
  · intro rounds
    exact play_over rounds (draw_grid g) (by rw [hl]; decide)

theorem loss_replays_last_move_witness :
    (move (demoGame 0 (3/2) 5) 1).game_progress = 0 ∧
    (∀ t ∈ (move (demoGame 0 (3/2) 5) 1).grid, built t) ∧
    distinct_coords (move (demoGame 0 (3/2) 5) 1).grid ∧
    ((move (demoGame 0 (3/2) 5) 1).piece.state = 0 ∨
      (move (demoGame 0 (3/2) 5) 1).piece.state = 1 ∨
      (move (demoGame 0 (3/2) 5) 1).piece.state = 2) ∧
    ((move (demoGame 0 (3/2) 5) 1).last_move = 0 ∨ (move (demoGame 0 (3/2) 5) 1).last_move = 1 ∨
      (move (demoGame 0 (3/2) 5) 1).last_move = 2 ∨ (move (demoGame 0 (3/2) 5) 1).last_move = 3) ∧
    (draw_grid (move (demoGame 0 (3/2) 5) 1)).game_progress = -1 ∧
    (∃ t ∈ (move (demoGame 0 (3/2) 5) 1).grid, t.type = 2 ∧
      footprint1_on (move (demoGame 0 (3/2) 5) 1) t ∧
      footprint2_on (move (demoGame 0 (3/2) 5) 1) t) ∧
    (((draw_loop (move (demoGame 0 (3/2) 5) 1)).off_grid_1 = true ∨
        (draw_loop (move (demoGame 0 (3/2) 5) 1)).off_grid_2 = true) ∧
      (draw_grid (move (demoGame 0 (3/2) 5) 1)).piece =
        (move (move (demoGame 0 (3/2) 5) 1) (move (demoGame 0 (3/2) 5) 1).last_move).piece ∧
      (draw_grid (move (demoGame 0 (3/2) 5) 1)).piece.state =
        (transition_table (move (demoGame 0 (3/2) 5) 1).piece.state
          (move (demoGame 0 (3/2) 5) 1).last_move).1 ∧
      (draw_grid (move (demoGame 0 (3/2) 5) 1)).piece.x =
        (move (demoGame 0 (3/2) 5) 1).piece.x +
          (transition_table (move (demoGame 0 (3/2) 5) 1).piece.state
            (move (demoGame 0 (3/2) 5) 1).last_move).2.1 ∧
      (draw_grid (move (demoGame 0 (3/2) 5) 1)).piece.y =
        (move (demoGame 0 (3/2) 5) 1).piece.y +
          (transition_table (move (demoGame 0 (3/2) 5) 1).piece.state
            (move (demoGame 0 (3/2) 5) 1).last_move).2.2.1 ∧
      (draw_grid (move (demoGame 0 (3/2) 5) 1)).piece.z =
        (move (demoGame 0 (3/2) 5) 1).piece.z +
          (transition_table (move (demoGame 0 (3/2) 5) 1).piece.state
            (move (demoGame 0 (3/2) 5) 1).last_move).2.2.2 ∧
      (draw_grid (move (demoGame 0 (3/2) 5) 1)).piece.moves =
        (move (demoGame 0 (3/2) 5) 1).piece.moves + 1 ∧
      ∀ rounds : List (List Int),
        (play (draw_grid (move (demoGame 0 (3/2) 5) 1)) rounds).piece =
          (draw_grid (move (demoGame 0 (3/2) 5) 1)).piece ∧
        (play (draw_grid (move (demoGame 0 (3/2) 5) 1)) rounds).game_progress ≠ 0) :=
  ⟨by decide!, by decide!, by decide!, by decide!, by decide!, by decide!, by decide!,
    loss_replays_last_move (move (demoGame 0 (3/2) 5) 1) (by decide!) (by decide!) (by decide!)
      (by decide!) (by decide!) (by decide!)⟩

/-- What a pass from a won position keeps: outcome Won, the grid built with
distinct coordinates, and a goal tile under both footprints. -/
theorem draw_grid_won (g : Game) (hw : g.game_progress = 1) (hb : ∀ t ∈ g.grid, built t)
    (hd : distinct_coords g.grid)
    (hg : ∃ t ∈ g.grid, t.type = 5 ∧ footprint1_on g t ∧ footprint2_on g t) :
    (draw_grid g).game_progress = 1 ∧ (draw_grid g).piece = g.piece ∧
    (∀ t ∈ (draw_grid g).grid, built t) ∧ distinct_coords (draw_grid g).grid ∧
    ∃ t ∈ (draw_grid g).grid, t.type = 5 ∧ footprint1_on (draw_grid g) t ∧
      footprint2_on (draw_grid g) t := by
  obtain ⟨t, ht, h5, f1, f2⟩ := hg
  obtain ⟨o1, o2⟩ := draw_loop_covered g hb hd t ht f1 f2 (by omega) (by omega)
  have hgp : (draw_grid g).game_progress = 1 := by
    rw [draw_grid_game_progress, o1, o2]
    simpa using (draw_loop_goal g).1 ⟨t, ht, h5, f1, f2⟩
  have hpiece : (draw_grid g).piece = g.piece :=
    (draw_grid_over g (by rw [hw]; decide)).1
  obtain ⟨b1, d1⟩ := draw_grid_grid_ok g hb hd
  refine ⟨hgp, hpiece, b1, d1, ?_⟩
  obtain ⟨k, hk⟩ := List.mem_iff_getElem?.1 ht
  obtain ⟨u, hu, hs⟩ := draw_grid_static g k t hk
  refine ⟨u, List.mem_iff_getElem?.2 ⟨k, hu⟩, hs.1.trans h5, ?_, ?_⟩
  · simp only [footprint1_on, hpiece, hs.2.2.2.1, hs.2.2.2.2.2]; exact f1
  · simp only [footprint2_on, hpiece, hs.2.2.2.1, hs.2.2.2.2.2]; exact f2

theorem play_won (rounds : List (List Int)) (g : Game) (hw : g.game_progress = 1)
    (hb : ∀ t ∈ g.grid, built t) (hd : distinct_coords g.grid)
    (hg : ∃ t ∈ g.grid, t.type = 5 ∧ footprint1_on g t ∧ footprint2_on g t) :
    (play g rounds).game_progress = 1 ∧ (play g rounds).piece = g.piece := by
  induction rounds generalizing g with
  | nil => exact ⟨hw, rfl⟩
  | cons dirs rounds ih =>
    obtain ⟨m1, m2⟩ := moves_over dirs g (by rw [hw]; decide)
    obtain ⟨mg, -⟩ := moves_grid dirs g
    have hg' : ∃ t ∈ (dirs.foldl move g).grid, t.type = 5 ∧
        footprint1_on (dirs.foldl move g) t ∧ footprint2_on (dirs.foldl move g) t := by
      obtain ⟨t, ht, h5, f1, f2⟩ := hg
      refine ⟨t, by rw [mg]; exact ht, h5, ?_, ?_⟩
      · simp only [footprint1_on, m1]; exact f1
      · simp only [footprint2_on, m1]; exact f2
    obtain ⟨w1, w2, w3, w4, w5⟩ := draw_grid_won (dirs.foldl move g) (m2.trans hw)
      (by rw [mg]; exact hb) (by rw [mg]; exact hd) hg'
    obtain ⟨i1, i2⟩ := ih (draw_grid (dirs.foldl move g)) w1 w3 w4 w5
    simp only [play, List.foldl_cons] at i1 i2 ⊢
    exact ⟨i1, i2.trans (w2.trans m1)⟩

/-- C17: on a grid of built tiles with pairwise distinct coordinates, once a
pass has ended Won with both footprints on a Goal tile, every later run of
rounds of moves and evaluation pass keeps the outcome Won and the piece
(orientation, center, footprints) unchanged. -/
theorem won_is_kept (g : Game) (hb : ∀ t ∈ g.grid, built t) (hd : distinct_coords g.grid)
    (hg : ∃ t ∈ g.grid, t.type = 5 ∧ footprint1_on g t ∧ footprint2_on g t)
    (hw : (draw_grid g).game_progress = 1) (rounds : List (List Int)) :
    (play (draw_grid g) rounds).game_progress = 1 ∧
    (play (draw_grid g) rounds).piece = (draw_grid g).piece := by
  obtain ⟨t, ht, h5, f1, f2⟩ := hg
  obtain ⟨-, -, e⟩ := draw_grid_not_lost g (by rw [hw]; decide)
  have hpiece : (draw_grid g).piece = g.piece := by rw [e]; exact (draw_loop_frame g).1
  obtain ⟨b1, d1⟩ := draw_grid_grid_ok g hb hd
  obtain ⟨k, hk⟩ := List.mem_iff_getElem?.1 ht
  obtain ⟨u, hu, hs⟩ := draw_grid_static g k t hk
  apply play_won rounds (draw_grid g) hw b1 d1
  refine ⟨u, List.mem_iff_getElem?.2 ⟨k, hu⟩, hs.1.trans h5, ?_, ?_⟩
  · simp only [footprint1_on, hpiece, hs.2.2.2.1, hs.2.2.2.2.2]; exact f1
  · simp only [footprint2_on, hpiece, hs.2.2.2.1, hs.2.2.2.2.2]; exact f2

theorem won_is_kept_witness :
    (∀ t ∈ (demoGame 1 (-2) 3).grid, built t) ∧ distinct_coords (demoGame 1 (-2) 3).grid ∧
    (∃ t ∈ (demoGame 1 (-2) 3).grid,
      t.type = 5 ∧ footprint1_on (demoGame 1 (-2) 3) t ∧ footprint2_on (demoGame 1 (-2) 3) t) ∧
    (draw_grid (demoGame 1 (-2) 3)).game_progress = 1 ∧
    (play (draw_grid (demoGame 1 (-2) 3)) [[0], [], [2, 1]]).game_progress = 1 ∧
    (play (draw_grid (demoGame 1 (-2) 3)) [[0], [], [2, 1]]).piece =
      (draw_grid (demoGame 1 (-2) 3)).piece :=
  ⟨by decide!, by decide!, by decide!, by decide!,
    won_is_kept (demoGame 1 (-2) 3) (by decide!) (by decide!) (by decide!) (by decide!)
      [[0], [], [2, 1]]⟩

/-! ## Where the code departs from the specification -/

set_option maxRecDepth 100000 in
/-- C16 (the code at the failing input): on level 0, after the pass that
follows the load, ten moves arrive before the next pass; that pass ends Lost
and replays the last move, which puts the piece upright on the goal tile
(3,8); the pass after it ends Won. -/
theorem lost_then_won :
    distinct_coords (init_grid startGame).grid ∧
    (play (init_grid startGame) [[]]).game_progress = 0 ∧
    (play (init_grid startGame) [[], [0, 0, 0, 2, 0, 2, 2, 2, 2, 1]]).game_progress = -1 ∧
    (play (init_grid startGame) [[], [0, 0, 0, 2, 0, 2, 2, 2, 2, 1], []]).game_progress = 1 := by
  decide!

/-! ## The move counter -/

theorem init_grid_cell_moves (g : Game) (i j : Nat) :
    (init_grid_cell g i j).piece.moves = g.piece.moves := by
  unfold init_grid_cell; split <;> [split; skip] <;> rfl

theorem init_grid_moves (g : Game) : (init_grid g).piece.moves = g.piece.moves := by
  have row : ∀ (i : Nat) (js : List Nat) (h : Game),
      (js.foldl (fun g j => init_grid_cell g i j) h).piece.moves = h.piece.moves := by
    intro i js
    induction js with
    | nil => intro h; rfl
    | cons j js ih =>
      intro h
      rw [List.foldl_cons, ih, init_grid_cell_moves]
  have rows : ∀ (is js : List Nat) (h : Game),
      (is.foldl (fun g i => js.foldl (fun g j => init_grid_cell g i j) g) h).piece.moves =
        h.piece.moves := by
    intro is js
    induction is with
    | nil => intro h; rfl
    | cons i is ih =>
      intro h
      rw [List.foldl_cons, ih, row]
  simp only [init_grid]
  rw [rows]

theorem move_moves (g : Game) (d : Int) :
    (move g d).piece.moves = g.piece.moves + (if g.game_progress = 0 then 1 else 0) := by
  by_cases hp : g.game_progress = 0
  · simp only [move, hp, ne_eq, not_true_eq_false, if_false, if_true]
    have hf : ∀ p : cuboid, p.footprints.moves = p.moves := by
      intro p; simp only [cuboid.footprints]; split_ifs <;> rfl
    have hr : ∀ (p : cuboid) (d : Int), (p.roll d).moves = p.moves := by
      intro p d; simp only [cuboid.roll]; split_ifs <;> rfl
    rw [hf, hr]
  · simp [move, hp]

theorem moves_moves (dirs : List Int) (g : Game) :
    (dirs.foldl move g).piece.moves =
      g.piece.moves + (if g.game_progress = 0 then (dirs.length : Int) else 0) ∧
    (dirs.foldl move g).game_progress = g.game_progress := by
  induction dirs generalizing g with
  | nil => simp
  | cons d ds ih =>
    have hgp : (move g d).game_progress = g.game_progress := by
      by_cases hp : g.game_progress = 0 <;> simp [move, hp]
    obtain ⟨i1, i2⟩ := ih (move g d)
    rw [List.foldl_cons]
    refine ⟨?_, i2.trans hgp⟩
    rw [i1, move_moves, hgp]
    by_cases hp : g.game_progress = 0
    · simp only [hp, if_true, List.length_cons]; push_cast; ring
    · simp [hp]

theorem draw_grid_moves (g : Game) :
    (draw_grid g).piece.moves = g.piece.moves + (if replays g then 1 else 0) := by
  have hp := (draw_loop_frame g).1
  unfold draw_grid replays
  by_cases ho : ((draw_loop g).off_grid_1 || (draw_loop g).off_grid_2) = true
  · simp only [ho, if_true, Bool.true_and, decide_eq_true_eq]
    show (move (draw_loop g).g (draw_loop g).g.last_move).piece.moves = _
    rw [move_moves, hp]
  · simp only [ho, if_false, Bool.false_eq_true]
    rw [hp]
    simp

theorem play_moves (rounds : List (List Int)) (g : Game) :
    (play g rounds).piece.moves = g.piece.moves + executed_moves g rounds := by
  induction rounds generalizing g with
  | nil => simp [play, executed_moves]
  | cons dirs rounds ih =>
    have := ih (draw_grid (dirs.foldl move g))
    simp only [play, List.foldl_cons] at this ⊢
    rw [this, draw_grid_moves, (moves_moves dirs g).1]
    simp only [executed_moves]
    ring
theorem key_N_moves (g : Game) : (key_N g).piece.moves = g.piece.moves := by
  unfold key_N
  split
  · rw [init_grid_moves]
  · rfl

theorem key_R_moves (g : Game) : (key_R g).piece.moves = g.piece.moves := by
  unfold key_R
  rw [key_N_moves]
  split
  · rw [init_grid_moves]
  · rfl

set_option maxRecDepth 100000 in
/-- C14 (as stated, refuted): on level 0, after the load, a pass, one
accepted Left and a pass, `moves` is 1; the restart key R reloads the level
(outcome InProgress, the grid of a fresh load) and `moves` is still 1. -/
theorem restart_keeps_moves :
    (play (init_grid startGame) [[], [0]]).piece.moves = 1 ∧
    (key_R (play (init_grid startGame) [[], [0]])).game_progress = 0 ∧
    (key_R (play (init_grid startGame) [[], [0]])).grid = (init_grid startGame).grid ∧
    (key_R (play (init_grid startGame) [[], [0]])).piece.moves = 1 := by
  decide!

/-- C14 (amended): `init_grid`, and with it the keys R and N, leave `moves`
as it was; the constructor and the key ENTER set it to 0; a `move` call adds
one exactly when the outcome is InProgress; so after any rounds of moves and
evaluation pass from a load, `moves` is its value before the load plus the
number of `move` calls executed with outcome InProgress since (the commands
accepted and the replays). -/
theorem moves_counts_executed (g : Game) (d : Int) (rounds : List (List Int)) :
    (init_grid g).piece.moves = g.piece.moves ∧
    (key_R g).piece.moves = g.piece.moves ∧
    (key_N g).piece.moves = g.piece.moves ∧
    (key_ENTER g).piece.moves = 0 ∧
    cuboid.new.moves = 0 ∧
    (move g d).piece.moves = g.piece.moves + (if g.game_progress = 0 then 1 else 0) ∧
    (play (init_grid g) rounds).piece.moves =
      g.piece.moves + executed_moves (init_grid g) rounds := by
  refine ⟨init_grid_moves g, key_R_moves g, key_N_moves g, ?_, rfl, move_moves g d, ?_⟩
  · unfold key_ENTER
    rw [init_grid_moves]
  · rw [play_moves, init_grid_moves]

/-! ## Loading arbitrary level data -/

theorem load_cell_grid (lv : Nat → Nat → Int) (g : Game) (i j : Nat) :
    (load_cell lv g i j).grid =
      g.grid ++ (if lv i j ≠ 0 then [loaded_tile lv (i, j)] else []) ∧
    (load_cell lv g i j).game_progress = g.game_progress ∧
    (lv i j ≠ -1 → (load_cell lv g i j).piece = g.piece) := by
  unfold load_cell loaded_tile
  by_cases h0 : lv i j = 0
  · simp [h0]
  · by_cases h1 : lv i j = -1
    · simp [h1]
    · simp [h0, h1]

theorem load_row (lv : Nat → Nat → Int) (i : Nat) (js : List Nat) (g : Game) :
    (js.foldl (fun g j => load_cell lv g i j) g).grid =
      g.grid ++ ((js.filter fun j => lv i j ≠ 0).map fun j => loaded_tile lv (i, j)) ∧
    (js.foldl (fun g j => load_cell lv g i j) g).game_progress = g.game_progress ∧
    ((∀ j ∈ js, lv i j ≠ -1) → (js.foldl (fun g j => load_cell lv g i j) g).piece = g.piece) := by
  induction js generalizing g with
  | nil => simp
  | cons j js ih =>
    obtain ⟨h1, h2, h3⟩ := ih (load_cell lv g i j)
    obtain ⟨c1, c2, c3⟩ := load_cell_grid lv g i j
    rw [List.foldl_cons]
    refine ⟨?_, h2.trans c2, ?_⟩
    · rw [h1, c1]
      by_cases h0 : lv i j = 0
      · simp [List.filter_cons, h0]
      · simp [List.filter_cons, h0]
    · intro hall
      rw [h3 (fun j' hj' => hall j' (List.mem_cons_of_mem _ hj')),
        c3 (hall j (List.mem_cons_self _ _))]

theorem load_rows (lv : Nat → Nat → Int) (js : List Nat) (is : List Nat) (g : Game) :
    (is.foldl (fun g i => js.foldl (fun g j => load_cell lv g i j) g) g).grid =
      g.grid ++ ((is.flatMap fun i =>
        (js.filter fun j => lv i j ≠ 0).map fun j => (i, j)).map (loaded_tile lv)) ∧
    (is.foldl (fun g i => js.foldl (fun g j => load_cell lv g i j) g) g).game_progress =
      g.game_progress ∧
    ((∀ i ∈ is, ∀ j ∈ js, lv i j ≠ -1) →
      (is.foldl (fun g i => js.foldl (fun g j => load_cell lv g i j) g) g).piece = g.piece) := by
  induction is generalizing g with
  | nil => simp
  | cons i is ih =>
    obtain ⟨h1, h2, h3⟩ := ih (js.foldl (fun g j => load_cell lv g i j) g)
    obtain ⟨r1, r2, r3⟩ := load_row lv i js g
    rw [List.foldl_cons]
    refine ⟨?_, h2.trans r2, ?_⟩
    · rw [h1, r1]
      simp [List.flatMap_cons, List.map_append, List.map_map, Function.comp_def]
    · intro hall
      rw [h3 (fun i' hi' => hall i' (List.mem_cons_of_mem _ hi')),
        r3 (hall i (List.mem_cons_self _ _))]

/-- The loader on the array of the current level is `init_grid`. -/
theorem init_grid_eq_load_level (g : Game) : init_grid g = load_level (mapsAt g.mapInd) g := by
  have cell : ∀ (h : Game) (i j : Nat), h.mapInd = g.mapInd →
      init_grid_cell h i j = load_cell (mapsAt g.mapInd) h i j := by
    intro h i j hm
    unfold init_grid_cell load_cell
    rw [hm]
  have row : ∀ (i : Nat) (js : List Nat) (h : Game), h.mapInd = g.mapInd →
      js.foldl (fun g j => init_grid_cell g i j) h =
        js.foldl (fun g' j => load_cell (mapsAt g.mapInd) g' i j) h := by
    intro i js
    induction js with
    | nil => intro h _; rfl
    | cons j js ih =>
      intro h hm
      rw [List.foldl_cons, List.foldl_cons, ← cell h i j hm]
      exact ih _ ((init_grid_cell_frame h i j).1.trans hm)
  have rows : ∀ (js is : List Nat) (h : Game), h.mapInd = g.mapInd →
      is.foldl (fun g i => js.foldl (fun g j => init_grid_cell g i j) g) h =
        is.foldl (fun g' i => js.foldl
          (fun g' j => load_cell (mapsAt g.mapInd) g' i j) g') h := by
    intro js is
    induction is with
    | nil => intro h _; rfl
    | cons i is ih =>
      intro h hm
      rw [List.foldl_cons, List.foldl_cons, ← row i js h hm]
      exact ih _ ((init_grid_row i js h).1.trans hm)
  simp only [init_grid, load_level]
  exact rows (List.range max_map_size) (List.range max_map_size)
    { game_progress := 0, take_action := false, last_move := g.last_move, piece := g.piece,
      mapInd := g.mapInd, grid := [], fall_speed := g.fall_speed } rfl

set_option maxRecDepth 100000 in
/-- C11 (as stated, refuted): level data with no start cell loads into a
grid of one tile with outcome InProgress; and level 0 with the linked cell
(6,4) made a regular tile loads into the full grid of 47 tiles, with a
regular tile at the linked coordinates, which the switch at (4,2) then
hides like a bridge. -/
theorem invalid_level_loads :
    (∀ i j : Nat, noStartLevel i j ≠ -1) ∧
    (load_level noStartLevel startGame).grid = [tiles.new 0 0 1 0] ∧
    (load_level noStartLevel startGame).game_progress = 0 ∧
    ((6, 4) ∈ switch_links 0 ∧
      (load_level badLinkLevel startGame).grid.length = 47 ∧
      (load_level badLinkLevel startGame).game_progress = 0 ∧
      (∃ t ∈ (load_level badLinkLevel startGame).grid,
        t.i = 6 ∧ t.j = 4 ∧ t.type = 1 ∧ t.show_ = 1) ∧
      ∃ t ∈ (toggle_bridge (load_level badLinkLevel startGame) 4 2).grid,
        t.i = 6 ∧ t.j = 4 ∧ t.type = 1 ∧ t.show_ = 0) := by
  refine ⟨?_, by decide!, by decide!, by decide!, by decide!, by decide!, by decide!,
    by decide!⟩
  intro i j
  unfold noStartLevel
  split <;> decide

/-- C11 (amended): loading validates nothing and cannot fail. For every
level array the loader (which is `init_grid` on the array of the current
level) builds one tile per non-zero cell in row-major order and sets the
outcome InProgress; when no cell is a start cell the piece is left as it
was; and `toggle_bridge` negates the flag of a tile at linked coordinates
whatever its kind. -/
theorem load_never_fails (lv : Nat → Nat → Int) (g : Game) :
    init_grid g = load_level (mapsAt g.mapInd) g ∧
    (load_level lv g).grid = (cells_of lv).map (loaded_tile lv) ∧
    (load_level lv g).game_progress = 0 ∧
    ((∀ i j : Nat, lv i j ≠ -1) → (load_level lv g).piece = g.piece) ∧
    (∀ (i j : Int) (t : tiles), g.mapInd < max_maps → (t.i, t.j) ∈ links_of g.mapInd i j →
      (toggle_tile g.mapInd i j t).show_ = cNot t.show_) := by
  obtain ⟨h1, h2, h3⟩ := load_rows lv (List.range max_map_size) (List.range max_map_size)
    { g with game_progress := 0, take_action := false, grid := [] }
  refine ⟨init_grid_eq_load_level g, ?_, ?_, ?_, ?_⟩
  · simp only [load_level, cells_of]
    rw [h1]
    simp
  · simp only [load_level]
    rw [h2]
  · intro hno
    simp only [load_level]
    rw [h3 (fun i _ j _ => hno i j)]
  · intro i j t hm hl
    exact toggle_tile_linked g.mapInd hm i j t hl

theorem load_never_fails_witness :
    (∀ i j : Nat, noStartLevel i j ≠ -1) ∧
    init_grid startGame = load_level (mapsAt startGame.mapInd) startGame ∧
    (load_level noStartLevel startGame).grid = (cells_of noStartLevel).map (loaded_tile noStartLevel) ∧
    (load_level noStartLevel startGame).game_progress = 0 ∧
    ((∀ i j : Nat, noStartLevel i j ≠ -1) →
      (load_level noStartLevel startGame).piece = startGame.piece) ∧
    (∀ (i j : Int) (t : tiles), startGame.mapInd < max_maps →
      (t.i, t.j) ∈ links_of startGame.mapInd i j →
      (toggle_tile startGame.mapInd i j t).show_ = cNot t.show_) :=
  ⟨fun i j => by unfold noStartLevel; split <;> decide, load_never_fails noStartLevel startGame⟩

/-! ## Runs on the shipped levels -/

theorem play_cons (g : Game) (dirs : List Int) (rounds : List (List Int)) :
    play g (dirs :: rounds) = play (draw_grid (dirs.foldl move g)) rounds := by
  simp [play]

/-- The game after the rounds is the last entry of the history. -/
theorem play_eq_history_getLastD (g : Game) (rounds : List (List Int)) :
    play g rounds = (history g rounds).getLastD g := by
  induction rounds generalizing g with
  | nil => simp [play, history]
  | cons dirs rest ih => rw [play_cons, ih, history, List.getLastD_cons]

set_option maxRecDepth 100000 in
/-- Level 0, Up then Up: the second Up puts the cuboid upright on the hidden
bridge tile (6,4), and the pass after it ends Lost. -/
theorem level0_up_up :
    outcomes (init_grid startGame) [[], [2], [2]] = [0, 0, -1] ∧
    (move (play (init_grid startGame) [[], [2]]) 2).piece.state = 1 ∧
    stands_on (move (play (init_grid startGame) [[], [2]]) 2) 6 4 3 0 := by
  simp only [play_eq_history_getLastD]
  decide!

set_option maxRecDepth 100000 in
/-- Level 0, Up, Left, Left: the second Left puts a footprint on the switch
(4,2) while the bridge tiles (6,4) and (6,5) are hidden; the pass after it
shows both. Then Right, Right, Up: every pass ends InProgress and the cuboid
is upright on the visible bridge tile (6,4). -/
theorem level0_switch_run :
    touches (move (play (init_grid startGame) [[], [2], [0]]) 0) 4 2 4 ∧
    shows_at (move (play (init_grid startGame) [[], [2], [0]]) 0) 6 4 = [0] ∧
    shows_at (move (play (init_grid startGame) [[], [2], [0]]) 0) 6 5 = [0] ∧
    shows_at (play (init_grid startGame) [[], [2], [0], [0]]) 6 4 = [1] ∧
    shows_at (play (init_grid startGame) [[], [2], [0], [0]]) 6 5 = [1] ∧
    outcomes (init_grid startGame) [[], [2], [0], [0], [1], [1], [2]] = [0, 0, 0, 0, 0, 0, 0] ∧
    (play (init_grid startGame) [[], [2], [0], [0], [1], [1], [2]]).piece.state = 1 ∧
    stands_on (play (init_grid startGame) [[], [2], [0], [0], [1], [1], [2]]) 6 4 3 1 := by
  simp only [play_eq_history_getLastD]
  decide!

set_option maxRecDepth 100000 in
/-- Level 0: the eleven moves win, with every earlier pass InProgress. -/
theorem level0_winning_run :
    outcomes (init_grid { startGame with mapInd := 0 })
        [[], [2], [0], [0], [1], [1], [2], [2], [2], [0], [2], [0]] =
      [0, 0, 0, 0, 0, 0, 0, 0, 0, 0, 0, 1] ∧
    (play (init_grid { startGame with mapInd := 0 })
      [[], [2], [0], [0], [1], [1], [2], [2], [2], [0], [2], [0]]).piece.state = 1 ∧
    stands_on (play (init_grid { startGame with mapInd := 0 })
      [[], [2], [0], [0], [1], [1], [2], [2], [2], [0], [2], [0]]) 3 8 5 1 := by
  simp only [play_eq_history_getLastD]
  decide!

set_option maxRecDepth 100000 in
/-- Level 1: the eleven moves win, with every earlier pass InProgress. -/
theorem level1_winning_run :
    outcomes (init_grid { startGame with mapInd := 1 })
        [[], [2], [0], [0], [1], [1], [2], [2], [2], [0], [2], [0]] =
      [0, 0, 0, 0, 0, 0, 0, 0, 0, 0, 0, 1] ∧
    (play (init_grid { startGame with mapInd := 1 })
      [[], [2], [0], [0], [1], [1], [2], [2], [2], [0], [2], [0]]).piece.state = 1 ∧
    stands_on (play (init_grid { startGame with mapInd := 1 })
      [[], [2], [0], [0], [1], [1], [2], [2], [2], [0], [2], [0]]) 3 8 5 1 := by
  simp only [play_eq_history_getLastD]
  decide!

/-- C12: in shipped level 0, with one evaluation pass after the load and
after every move. Up, Up: the second Up puts the cuboid upright on the
hidden bridge tile (6,4) and the pass after it ends Lost (the passes before
it InProgress). Up, Left, Left: the second Left puts a footprint on the
switch (4,2) while bridge tiles (6,4) and (6,5) are hidden, and the pass
after it makes both visible with outcome InProgress. Then Right, Right, Up:
every pass ends InProgress and the cuboid is upright on the visible bridge
tile (6,4). -/
theorem level0_switch_opens_bridge :
    outcomes (init_grid startGame) [[], [2], [2]] = [0, 0, -1] ∧
    (move (play (init_grid startGame) [[], [2]]) 2).piece.state = 1 ∧
    stands_on (move (play (init_grid startGame) [[], [2]]) 2) 6 4 3 0 ∧
    touches (move (play (init_grid startGame) [[], [2], [0]]) 0) 4 2 4 ∧
    shows_at (move (play (init_grid startGame) [[], [2], [0]]) 0) 6 4 = [0] ∧
    shows_at (move (play (init_grid startGame) [[], [2], [0]]) 0) 6 5 = [0] ∧
    shows_at (play (init_grid startGame) [[], [2], [0], [0]]) 6 4 = [1] ∧
    shows_at (play (init_grid startGame) [[], [2], [0], [0]]) 6 5 = [1] ∧
    outcomes (init_grid startGame) [[], [2], [0], [0], [1], [1], [2]] = [0, 0, 0, 0, 0, 0, 0] ∧
    (play (init_grid startGame) [[], [2], [0], [0], [1], [1], [2]]).piece.state = 1 ∧
    stands_on (play (init_grid startGame) [[], [2], [0], [0], [1], [1], [2]]) 6 4 3 1 :=
  ⟨level0_up_up.1, level0_up_up.2.1, level0_up_up.2.2, level0_switch_run⟩

/-- C18: each of the two shipped levels can be won. From the loaded level,
with one evaluation pass after the load and after each move, the eleven
moves Up, Left, Left, Right, Right, Up, Up, Up, Left, Up, Left give the
outcome InProgress after the load and after each of the first ten moves and
Won after the last, which leaves the cuboid upright on the goal tile
(3,8). -/
theorem shipped_levels_winnable :
    ∀ m ∈ List.range max_maps,
      outcomes (init_grid { startGame with mapInd := m })
          [[], [2], [0], [0], [1], [1], [2], [2], [2], [0], [2], [0]] =
        [0, 0, 0, 0, 0, 0, 0, 0, 0, 0, 0, 1] ∧
      (play (init_grid { startGame with mapInd := m })
        [[], [2], [0], [0], [1], [1], [2], [2], [2], [0], [2], [0]]).piece.state = 1 ∧
      stands_on (play (init_grid { startGame with mapInd := m })
        [[], [2], [0], [0], [1], [1], [2], [2], [2], [0], [2], [0]]) 3 8 5 1 := by
  intro m hm
  have h : m = 0 ∨ m = 1 := by
    simp only [max_maps, List.mem_range] at hm
    omega
  rcases h with rfl | rfl
  · exact level0_winning_run
  · exact level1_winning_run

theorem shipped_levels_winnable_witness :
    1 ∈ List.range max_maps ∧
    outcomes (init_grid { startGame with mapInd := 1 })
        [[], [2], [0], [0], [1], [1], [2], [2], [2], [0], [2], [0]] =
      [0, 0, 0, 0, 0, 0, 0, 0, 0, 0, 0, 1] ∧
    (play (init_grid { startGame with mapInd := 1 })
      [[], [2], [0], [0], [1], [1], [2], [2], [2], [0], [2], [0]]).piece.state = 1 ∧
    stands_on (play (init_grid { startGame with mapInd := 1 })
      [[], [2], [0], [0], [1], [1], [2], [2], [2], [0], [2], [0]]) 3 8 5 1 :=
  ⟨by decide, shipped_levels_winnable 1 (by decide)⟩

/-! ## A broken fragile tile -/

theorem move_game_progress (g : Game) (d : Int) :
    (move g d).game_progress = g.game_progress := by
  unfold move
  simp only
  split <;> rfl

/-- The tiles of a freshly loaded shipped level: built, with distinct
coordinates, bridges at every linked coordinate, and every fragile tile
visible. -/
theorem level_tiles_ok (m : Nat) (hm : m < max_maps) :
    (∀ t ∈ (level_cells m).map (built_tile m), built t) ∧
    distinct_coords ((level_cells m).map (built_tile m)) ∧
    (∀ u ∈ (level_cells m).map (built_tile m), (u.i, u.j) ∈ switch_links m → u.type = 3) ∧
    (∀ t ∈ (level_cells m).map (built_tile m), t.type = 2 → t.show_ ≠ 0) := by
  have hm' : m = 0 ∨ m = 1 := by simp [max_maps] at hm; omega
  rcases hm' with rfl | rfl <;> decide!

theorem init_grid_mapInd (g : Game) : (init_grid g).mapInd = g.mapInd := by
  unfold init_grid
  exact (init_grid_rows (List.range max_map_size) (List.range max_map_size)
    { g with game_progress := 0, take_action := false, grid := [] }).1

theorem attempt_ok_init (g : Game) (hm : g.mapInd < max_maps) : attempt_ok (init_grid g) := by
  obtain ⟨hb, hd, hl, hf⟩ := level_tiles_ok g.mapInd hm
  have hgp := init_grid_game_progress g
  refine ⟨by rw [init_grid_mapInd]; exact hm, ?_, ?_, ?_, Or.inl hgp, ?_, ?_⟩
  · intro u hu
    rw [init_grid_mapInd]
    rw [init_grid_grid] at hu
    exact hl u hu
  · rw [init_grid_grid]; exact hb
  · rw [init_grid_grid]; exact hd
  · intro t ht h2 h0
    rw [init_grid_grid] at ht
    exact absurd h0 (hf t ht h2)
  · intro h1
    rw [hgp] at h1
    exact absurd h1 (by decide)

theorem attempt_ok_move (g : Game) (d : Int) (h : attempt_ok g) : attempt_ok (move g d) := by
  obtain ⟨hm, hl, hb, hd, h3, hf, hw⟩ := h
  obtain ⟨eg, em⟩ := move_grid g d
  have egp := move_game_progress g d
  refine ⟨by rw [em]; exact hm, ?_, by rw [eg]; exact hb, by rw [eg]; exact hd,
    by rw [egp]; exact h3, ?_, ?_⟩
  · intro u hu
    rw [eg] at hu
    rw [em]
    exact hl u hu
  · intro t ht
    rw [eg] at ht
    rw [egp]
    exact hf t ht
  · intro h1
    rw [egp] at h1
    obtain ⟨u, hu, h5, f1, f2⟩ := hw h1
    have hp : (move g d).piece = g.piece := (move_over g d (by rw [h1]; decide)).1
    refine ⟨u, by rw [eg]; exact hu, h5, ?_, ?_⟩
    · unfold footprint1_on at f1 ⊢; rw [hp]; exact f1
    · unfold footprint2_on at f2 ⊢; rw [hp]; exact f2

theorem attempt_ok_moves (dirs : List Int) (g : Game) (h : attempt_ok g) :
    attempt_ok (dirs.foldl move g) := by
  induction dirs generalizing g with
  | nil => exact h
  | cons d ds ih => exact ih (move g d) (attempt_ok_move g d h)

/-- With the outcome Won after the pass, both footprints were on a goal tile
before it, when Won before the pass means the same. -/
theorem goal_covered_of_won (g : Game)
    (hw : g.game_progress = 1 →
      ∃ u ∈ g.grid, u.type = 5 ∧ footprint1_on g u ∧ footprint2_on g u)
    (h1 : (draw_grid g).game_progress = 1) :
    ∃ u ∈ g.grid, u.type = 5 ∧ footprint1_on g u ∧ footprint2_on g u := by
  by_contra hc
  obtain ⟨-, -, e⟩ := draw_grid_not_lost g (by rw [h1]; decide)
  rw [e, (draw_loop_goal g).2 hc] at h1
  exact hc (hw h1)

theorem attempt_ok_draw_grid (g : Game) (h : attempt_ok g) : attempt_ok (draw_grid g) := by
  obtain ⟨hm, hl, hb, hd, h3, hf, hw⟩ := h
  obtain ⟨hb', hd'⟩ := draw_grid_grid_ok g hb hd
  have h3' : (draw_grid g).game_progress = 0 ∨ (draw_grid g).game_progress = 1 ∨
      (draw_grid g).game_progress = -1 := by
    rw [draw_grid_game_progress]
    split
    · exact Or.inr (Or.inr rfl)
    · rcases draw_loop_game_progress_cases g with c | c
      · exact Or.inr (Or.inl c)
      · rw [c]; exact h3
  refine ⟨by rw [(draw_grid_grid g).2]; exact hm, links_only_bridges_round g [] hl, hb', hd',
    h3', ?_, ?_⟩
  · intro u hu h2 h0
    obtain ⟨k, hk⟩ := List.mem_iff_getElem?.1 hu
    obtain ⟨t, ht, hs⟩ := draw_grid_static_rev g k u hk
    have ht2 : t.type = 2 := hs.1.symm.trans h2
    have htm : t ∈ g.grid := List.mem_iff_getElem?.2 ⟨k, ht⟩
    obtain ⟨u', hu', -, hiff⟩ := draw_grid_fragile g hm hl k t ht ht2
    rw [hk] at hu'
    rw [← Option.some.inj hu'] at hiff
    rcases hiff.1 h0 with c | ⟨f1, f2⟩
    · exact (draw_grid_over g (hf t htm ht2 c)).2
    · rw [draw_grid_game_progress,
        (draw_loop_bad_tile g hb hd t htm (Or.inl ⟨ht2, f1, f2⟩)).1 f1]
      simp
  · intro h1
    obtain ⟨t, ht, h5, f1, f2⟩ := goal_covered_of_won g hw h1
    obtain ⟨k, hk⟩ := List.mem_iff_getElem?.1 ht
    obtain ⟨u, hu, hs⟩ := draw_grid_static g k t hk
    obtain ⟨-, -, e⟩ := draw_grid_not_lost g (by rw [h1]; decide)
    have hp : (draw_grid g).piece = g.piece := by rw [e]; exact (draw_loop_frame g).1
    refine ⟨u, List.mem_iff_getElem?.2 ⟨k, hu⟩, hs.1.trans h5, ?_, ?_⟩
    · unfold footprint1_on at f1 ⊢
      rw [hp, hs.2.2.2.1, hs.2.2.2.2.2]; exact f1
    · unfold footprint2_on at f2 ⊢
      rw [hp, hs.2.2.2.1, hs.2.2.2.2.2]; exact f2

theorem attempt_ok_play (rounds : List (List Int)) (g : Game) (h : attempt_ok g) :
    attempt_ok (play g rounds) := by
  induction rounds generalizing g with
  | nil => exact h
  | cons dirs rest ih =>
    rw [play_cons]
    exact ih _ (attempt_ok_draw_grid _ (attempt_ok_moves dirs g h))

/-- Every game a run reaches from the load of a shipped level, after any
rounds of moves and passes and any further moves, satisfies `attempt_ok`.
In particular no such game has a broken fragile tile while the outcome is
InProgress. -/
theorem attempt_ok_run (g0 : Game) (hm : g0.mapInd < max_maps) (rounds : List (List Int))
    (dirs : List Int) : attempt_ok (dirs.foldl move (play (init_grid g0) rounds)) :=
  attempt_ok_moves dirs _ (attempt_ok_play rounds _ (attempt_ok_init g0 hm))

end Bloxorz
